import Mathlib

/-!
Verification of the seating-app constraint-aware seat assignment engine.

The definitions below are a shallow embedding of the engine implemented in
`src/components/Roulette/RouletteDisplay.tsx` (the first component variant in
that file, which is the one the specification describes): the adjacency helper
`getAdjacentSeatIds`, the constraint checker `checkRelationConstraints`, the
single-draw resolver `stopRoulette`, the batch resolver `handleBulkAssign`, and
the reset handler `handleResetRoulette`.  JavaScript-specific behaviours that
matter to the engine are modelled explicitly: string truthiness (`null` and
`""` are falsy) via `jsTruthyS`, the unanchored regex search
`seatId.match(/R(\d+)C(\d+)/)` via `scanRC`, and template-literal rendering of
possibly negative row/column numbers via `intStr`.  Randomness (the shuffles
produced with `Math.random`) is modelled by passing the shuffled lists as
explicit arguments; theorems quantify over them, constrained to be
permutations of the lists the source shuffles.
-/

namespace SeatingApp

/-- JavaScript truthiness of a `string | null` value: `null` and the empty
string are falsy. -/
def jsTruthyS : Option String → Bool
  | none => false
  | some s => !(s == "")

/-- The decimal digit characters, for rendering numbers the way a JS template
literal does. -/
def digitChar : Nat → Char
  | 0 => '0'
  | 1 => '1'
  | 2 => '2'
  | 3 => '3'
  | 4 => '4'
  | 5 => '5'
  | 6 => '6'
  | 7 => '7'
  | 8 => '8'
  | _ => '9'

/-- Decimal digit list of a natural number (fuel-based so that it reduces by
kernel computation). -/
def natChars : Nat → Nat → List Char
  | 0, _ => []
  | fuel + 1, n => if n < 10 then [digitChar n] else natChars fuel (n / 10) ++ [digitChar (n % 10)]

/-- Decimal rendering of a natural number. -/
def natStr (n : Nat) : String :=
  String.mk (natChars (n + 1) n)

/-- Decimal rendering of an integer, as a JS template literal renders a
number: a leading minus sign for negative values. -/
def intStr (i : Int) : String :=
  if i < 0 then "-" ++ natStr i.natAbs else natStr i.natAbs

/-- Numeric value of a list of decimal digit characters (the value
`parseInt` gives a captured digit run). -/
def natOfDigits (l : List Char) : Nat :=
  l.foldl (fun n c => 10 * n + (c.toNat - 48)) 0

/-- Attempt to match the regex `R(\d+)C(\d+)` starting exactly at the head of
the character list, returning the parsed row and column.  The digit runs are
maximal, as with greedy `\d+` (backtracking the first run cannot help, because
a shortened run leaves a digit where the literal `C` is required). -/
def tryParseRC : List Char → Option (Nat × Nat)
  | 'R' :: rest =>
    let d1 := rest.takeWhile Char.isDigit
    let r1 := rest.dropWhile Char.isDigit
    if d1.isEmpty then none
    else
      match r1 with
      | 'C' :: rest2 =>
        let d2 := rest2.takeWhile Char.isDigit
        if d2.isEmpty then none else some (natOfDigits d1, natOfDigits d2)
      | _ => none
  | _ => none

/-- The JS unanchored regex search `s.match(/R(\d+)C(\d+)/)`: try each start
position from the left and return the first successful match. -/
def scanRC : List Char → Option (Nat × Nat)
  | [] => none
  | c :: rest =>
    match tryParseRC (c :: rest) with
    | some rc => some rc
    | none => scanRC rest

/-- `parseSeatId s` is the result of `s.match(/R(\d+)C(\d+)/)` : the captured
row and column of the first occurrence of the pattern, if any. -/
def parseSeatId (s : String) : Option (Nat × Nat) :=
  scanRC s.data

/-- The student record (src/types/Student.ts). -/
structure Student where
  id : String
  number : String
  name : String
  kana : String
  info1 : String
  info2 : String
  info3 : String
  isAssigned : Bool
  assignedSeatId : Option String
deriving DecidableEq

/-- The seat record (SeatMapData in src/types/Seat.ts). -/
structure SeatMapData where
  seatId : String
  row : Nat
  col : Nat
  assignedStudentId : Option String
  isUsable : Bool
deriving DecidableEq

/-- The relation type (src/types/Relation.ts): must sit together or must not
sit together. -/
inductive RelationType where
  | co_seat : RelationType
  | no_co_seat : RelationType
deriving DecidableEq

/-- A pairwise relation between two students (RelationConfigData). -/
structure RelationConfigData where
  studentId1 : String
  studentId2 : String
  type : RelationType
deriving DecidableEq

/-- A fixed seat pre-assignment (FixedSeatAssignment in src/types/Seat.ts). -/
structure FixedSeatAssignment where
  studentId : String
  seatId : String
deriving DecidableEq

/-- `"R" ++ r ++ "C" ++ c` — the template literal the source uses to build
neighbour seat identifiers. -/
def seatIdOf (r c : Int) : String :=
  "R" ++ intStr r ++ "C" ++ intStr c

/-- The four orthogonal neighbour identifiers, in the order the source lists
them: up, down, left, right. -/
def potentialAdjacents (row col : Int) : List String :=
  [seatIdOf (row - 1) col, seatIdOf (row + 1) col,
   seatIdOf row (col - 1), seatIdOf row (col + 1)]

/-- `getAdjacentSeatIds` (RouletteDisplay.tsx, lines 47-68): parse the seat id
with the unanchored regex `R(\d+)C(\d+)`; if there is no match return `[]`;
otherwise keep those of the four orthogonal neighbour identifiers that occur
as a `seatId` in the seat map and differ from the input string. -/
def getAdjacentSeatIds (seatId : String) (seatMap : List SeatMapData) : List String :=
  match parseSeatId seatId with
  | none => []
  | some (r, c) =>
    (potentialAdjacents (Int.ofNat r) (Int.ofNat c)).filter
      (fun adjId => seatMap.any (fun s => s.seatId == adjId) && !(adjId == seatId))

/-- One iteration of the `for (const rel of relations)` loop body of
`checkRelationConstraints`: `true` means the loop continues (the relation is
satisfied or imposes no constraint), `false` means the source returns
`false`. -/
def relationOk (adjacentSeats : List String) (assigningStudent : Student)
    (allStudents : List Student) (rel : RelationConfigData) : Bool :=
  if rel.studentId1 == assigningStudent.id || rel.studentId2 == assigningStudent.id then
    let partnerId := if rel.studentId1 == assigningStudent.id then rel.studentId2 else rel.studentId1
    match allStudents.find? (fun s => s.id == partnerId) with
    | none => true
    | some partnerStudent =>
      if !partnerStudent.isAssigned || !(jsTruthyS partnerStudent.assignedSeatId) then true
      else
        let partnerSeatId := partnerStudent.assignedSeatId.getD ""
        match rel.type with
        | RelationType.co_seat => adjacentSeats.contains partnerSeatId
        | RelationType.no_co_seat => !(adjacentSeats.contains partnerSeatId)
  else true

/-- `checkRelationConstraints` (RouletteDisplay.tsx, lines 118-152): fail
closed on a missing student, otherwise every relation involving the student
must be satisfied against already-seated partners. -/
def checkRelationConstraints (targetSeatId : String) (assigningStudent : Option Student)
    (currentSeatMap : List SeatMapData) (allStudents : List Student)
    (relations : List RelationConfigData) : Bool :=
  match assigningStudent with
  | none => false
  | some st =>
    relations.all (relationOk (getAdjacentSeatIds targetSeatId currentSeatMap) st allStudents)

/-- The `availableSeats` memo: usable seats with no (truthy) assigned
student. -/
def availableSeats (seatMap : List SeatMapData) : List SeatMapData :=
  seatMap.filter (fun seat => seat.isUsable && !(jsTruthyS seat.assignedStudentId))

/-- The `unassignedStudents` memo restricted to what the engine observes of
it: the source additionally sorts by `Number(number)`, which changes neither
membership nor length, the only facts the resolvers consume. -/
def unassignedStudents (students : List Student) : List Student :=
  students.filter (fun s => !s.isAssigned)

/-- The assignment state a resolver call reads and writes: the student roster,
the seat map, and the `winningHistory` of committed `(studentId, seatId)`
pairs. -/
structure EngineState where
  students : List Student
  seatMap : List SeatMapData
  history : List (String × String)
deriving DecidableEq

/-- `students.map(s => s.id === stId ? { ...s, isAssigned: true,
assignedSeatId: seatId } : s)` — the student half of a commit. -/
def commitStudents (stId seatId : String) (students : List Student) : List Student :=
  students.map (fun s =>
    if s.id == stId then { s with isAssigned := true, assignedSeatId := some seatId } else s)

/-- `seatMap.map(seat => seat.seatId === seatId ? { ...seat,
assignedStudentId: stId } : seat)` — the seat half of a commit. -/
def commitSeatMap (stId seatId : String) (seatMap : List SeatMapData) : List SeatMapData :=
  seatMap.map (fun seat =>
    if seat.seatId == seatId then { seat with assignedStudentId := some stId } else seat)

/-- Commit one student to one seat: both records are updated and the pair is
appended to the history, exactly as the final block of `stopRoulette` does. -/
def commitAssign (stId seatId : String) (state : EngineState) : EngineState :=
  { students := commitStudents stId seatId state.students,
    seatMap := commitSeatMap stId seatId state.seatMap,
    history := state.history ++ [(stId, seatId)] }

/-- Outcome of a `stopRoulette` call: the (possibly unchanged) assignment
state, the committed seat if any, and the last error message reported via
`setLocalErrorMessage`, if any. -/
structure StopResult where
  state : EngineState
  committed : Option String
  error : Option String
deriving DecidableEq

def eNoStudent : String := "座席を割り当てる生徒が選択されていません。"

def eFixedUnusable (name seatId : String) : String :=
  "生徒 " ++ name ++ " の固定座席 (" ++ seatId ++ ") は使用できません。座席設定を確認してください。"

def eFixedConflict (name seatId : String) : String :=
  "生徒 " ++ name ++ " の固定座席 (" ++ seatId ++ ") は既に他の生徒に割り当てられています。"

def eManualConstraint (seatId : String) : String :=
  "選択された座席 (" ++ seatId ++ ") は関係性制約を満たしません。"

def eManualUnavailable (seatId : String) : String :=
  "選択された座席 (" ++ seatId ++ ") は利用できません。"

def eNoSeat : String :=
  "関係性を満たす空席が見つかりませんでした。手動で割り当てるか、関係性設定を見直してください。"

/-- Steps 1 and 2 of `stopRoulette` (lines 226-256): the fixed-assignment
branch, or else the manual-selection branch.  Returns
`(finalChosenSeatId so far, error message so far)`; the first component is
`some _` exactly when `isValidFinalSeat` became true. -/
def stopStep12 (state : EngineState) (relations : List RelationConfigData)
    (fixedSeatAssignments : List FixedSeatAssignment) (st : Student)
    (manual : Option String) : Option String × Option String :=
  match fixedSeatAssignments.find? (fun fsa => fsa.studentId == st.id) with
  | some fixedAssignment =>
    match state.seatMap.find? (fun seat => seat.seatId == fixedAssignment.seatId) with
    | none => (none, some (eFixedUnusable st.name fixedAssignment.seatId))
    | some targetFixedSeat =>
      if !targetFixedSeat.isUsable then
        (none, some (eFixedUnusable st.name fixedAssignment.seatId))
      else if jsTruthyS targetFixedSeat.assignedStudentId
          && !(targetFixedSeat.assignedStudentId == some st.id) then
        (none, some (eFixedConflict st.name fixedAssignment.seatId))
      else (some fixedAssignment.seatId, none)
  | none =>
    if jsTruthyS manual then
      let m := manual.getD ""
      match (availableSeats state.seatMap).find? (fun seat => seat.seatId == m) with
      | some _ =>
        if checkRelationConstraints m (some st) state.seatMap state.students relations then
          (some m, none)
        else (none, some (eManualConstraint m))
      | none => (none, some (eManualUnavailable m))
    else (none, none)

/-- Step 3 of `stopRoulette` (lines 258-267): if no valid seat was found yet,
try the currently highlighted seat; a failure here reports no error. -/
def stopStep3 (state : EngineState) (relations : List RelationConfigData) (st : Student)
    (highlight : Option String) (prev : Option String × Option String) :
    Option String × Option String :=
  match prev.1 with
  | some _ => prev
  | none =>
    if jsTruthyS highlight then
      let h := highlight.getD ""
      match (availableSeats state.seatMap).find? (fun seat => seat.seatId == h) with
      | some _ =>
        if checkRelationConstraints h (some st) state.seatMap state.students relations then
          (some h, prev.2)
        else prev
      | none => prev
    else prev

/-- The `while (!isValidFinalSeat && attempts < maxAttempts)` loop of step 4:
`fuel` is the number of remaining attempts (initially 100), `attempts` the
JS loop counter; the index wraps with `attempts % length` and a seat with a
falsy (empty) `seatId` is skipped before the constraint check. -/
def fallbackGo (seats : List SeatMapData) (pred : SeatMapData → Bool) :
    Nat → Nat → Option SeatMapData
  | 0, _ => none
  | fuel + 1, attempts =>
    match seats.get? (attempts % seats.length) with
    | some seat =>
      if !(seat.seatId == "") && pred seat then some seat
      else fallbackGo seats pred fuel (attempts + 1)
    | none => fallbackGo seats pred fuel (attempts + 1)

/-- Step 4 and the final commit of `stopRoulette` (lines 269-326): if no
valid seat was found in steps 1-3, search the shuffled available seats for a
constraint-satisfying one; commit the final seat, or fail with the
no-admissible-seat error and leave the assignment state untouched. -/
def stopFinish (state : EngineState) (relations : List RelationConfigData) (st : Student)
    (shuffledAvailableSeats : List SeatMapData) (prev : Option String × Option String) :
    StopResult :=
  match prev.1 with
  | some finalSeatId =>
    { state := commitAssign st.id finalSeatId state,
      committed := some finalSeatId, error := prev.2 }
  | none =>
    match fallbackGo shuffledAvailableSeats
        (fun seat => checkRelationConstraints seat.seatId (some st) state.seatMap
          state.students relations) 100 0 with
    | some seat =>
      { state := commitAssign st.id seat.seatId state,
        committed := some seat.seatId, error := prev.2 }
    | none => { state := state, committed := none, error := some eNoSeat }

/-- `stopRoulette` (lines 201-327).  `shuffledAvailableSeats` stands for the
random shuffle `[...availableSeats].sort(() => Math.random() - 0.5)` the
source builds for the fallback search; theorems quantify over it. -/
def stopRoulette (state : EngineState) (relations : List RelationConfigData)
    (fixedSeatAssignments : List FixedSeatAssignment)
    (selectedStudentForAssignment : Option Student) (manual : Option String)
    (currentSelectedSeatId : Option String) (isRunning : Bool)
    (shuffledAvailableSeats : List SeatMapData) : StopResult :=
  if !isRunning then { state := state, committed := none, error := none }
  else
    match selectedStudentForAssignment with
    | none => { state := state, committed := none, error := some eNoStudent }
    | some st =>
      stopFinish state relations st shuffledAvailableSeats
        (stopStep3 state relations st currentSelectedSeatId
          (stopStep12 state relations fixedSeatAssignments st manual))

/-- The full per-session configuration a reset call can see: the assignment
state plus the fixed-assignment and relation configuration. -/
structure FullState where
  students : List Student
  seatMap : List SeatMapData
  history : List (String × String)
  fixedSeatAssignments : List FixedSeatAssignment
  relationConfig : List RelationConfigData
deriving DecidableEq

/-- `handleResetRoulette` (lines 362-385): after the user confirms, clear
every seat's `assignedStudentId`, every student's `isAssigned` and
`assignedSeatId`, and the winning history; the handler touches nothing
else (in particular not `fixedSeatAssignments` or `relationConfig`). -/
def handleResetRoulette (confirmed : Bool) (fs : FullState) : FullState :=
  if confirmed then
    { students := fs.students.map (fun s => { s with isAssigned := false, assignedSeatId := none }),
      seatMap := fs.seatMap.map (fun seat => { seat with assignedStudentId := none }),
      history := [],
      fixedSeatAssignments := fs.fixedSeatAssignments,
      relationConfig := fs.relationConfig }
  else fs

def bNoStudents : String := "割り当てる生徒がいません。"

def bNoSeats : String := "割り当て可能な空席がありません。"

def bTooMany (u a : Nat) : String :=
  "生徒 (" ++ natStr u ++ "人) が空席 (" ++ natStr a ++ "席) より多いため、一括割り当てできません。"

def p1NoStudent (studentId : String) : String :=
  "固定座席が設定されている生徒 (" ++ studentId ++ ") が見つかりません。"

def p1NoSeat (name seatId : String) : String :=
  "生徒 " ++ name ++ " の固定座席 (" ++ seatId ++ ") が見つかりません。"

def p1Unusable (name seatId : String) : String :=
  "生徒 " ++ name ++ " の固定座席 (" ++ seatId ++ ") は使用不可です。"

def p2NoSeat (name : String) : String :=
  "生徒 " ++ name ++ " の座席を見つけられませんでした。"

/-- The evolving state of one `handleBulkAssign` call: the temporary deep
copies of the roster and seat map, the growing history, the two tracking
sets (`assignedStudentIdsInTemp`, `assignedSeatIdsInTemp`, modelled as
lists), and the error messages reported so far. -/
structure BulkState where
  students : List Student
  seatMap : List SeatMapData
  history : List (String × String)
  assignedStudentIds : List String
  assignedSeatIds : List String
  errors : List String
deriving DecidableEq

/-- One iteration of the phase-1 `fixedSeatAssignments.forEach` body of
`handleBulkAssign` (lines 422-468). -/
def bulkPhase1Step (bs : BulkState) (fixedAssignment : FixedSeatAssignment) : BulkState :=
  match bs.students.find? (fun s => s.id == fixedAssignment.studentId) with
  | none => { bs with errors := bs.errors ++ [p1NoStudent fixedAssignment.studentId] }
  | some student =>
    match bs.seatMap.find? (fun s => s.seatId == fixedAssignment.seatId) with
    | none => { bs with errors := bs.errors ++ [p1NoSeat student.name fixedAssignment.seatId] }
    | some fixedSeat =>
      if !fixedSeat.isUsable then
        { bs with errors := bs.errors ++ [p1Unusable student.name fixedAssignment.seatId] }
      else if jsTruthyS fixedSeat.assignedStudentId
          && !(fixedSeat.assignedStudentId == some student.id) then
        { bs with errors := bs.errors ++ [eFixedConflict student.name fixedAssignment.seatId] }
      else if bs.assignedStudentIds.contains student.id then bs
      else if bs.assignedSeatIds.contains fixedSeat.seatId then bs
      else
        { students := commitStudents student.id fixedSeat.seatId bs.students,
          seatMap := commitSeatMap student.id fixedSeat.seatId bs.seatMap,
          history := bs.history ++ [(student.id, fixedSeat.seatId)],
          assignedStudentIds := bs.assignedStudentIds ++ [student.id],
          assignedSeatIds := bs.assignedSeatIds ++ [fixedSeat.seatId],
          errors := bs.errors }

/-- The phase-2 inner `while` loop of `handleBulkAssign` (lines 504-546),
extensionally: the loop index and the attempt counter advance together, so
the loop is a left-to-right scan of the remaining seats for the first one
passing the guards, which is then `splice`d out of the list. -/
def findRemove (p : SeatMapData → Bool) : List SeatMapData → Option (SeatMapData × List SeatMapData)
  | [] => none
  | x :: xs =>
    if p x then some (x, xs)
    else (findRemove p xs).map (fun r => (r.1, x :: r.2))

/-- One iteration of the phase-2 `remainingUnassignedStudents.forEach` body
of `handleBulkAssign` (lines 492-551): skip students already assigned in this
batch, otherwise scan the remaining seats for the first admissible one. -/
def bulkPhase2Step (relations : List RelationConfigData)
    (acc : BulkState × List SeatMapData) (student : Student) : BulkState × List SeatMapData :=
  let bs := acc.1
  let remSeats := acc.2
  if bs.assignedStudentIds.contains student.id then acc
  else
    match findRemove (fun seat =>
        !(seat.seatId == "") && !(bs.assignedSeatIds.contains seat.seatId)
          && checkRelationConstraints seat.seatId (some student) bs.seatMap bs.students relations)
        remSeats with
    | some (seat, rest) =>
      ({ students := commitStudents student.id seat.seatId bs.students,
         seatMap := commitSeatMap student.id seat.seatId bs.seatMap,
         history := bs.history ++ [(student.id, seat.seatId)],
         assignedStudentIds := bs.assignedStudentIds ++ [student.id],
         assignedSeatIds := bs.assignedSeatIds ++ [seat.seatId],
         errors := bs.errors }, rest)
    | none => ({ bs with errors := bs.errors ++ [p2NoSeat student.name] }, remSeats)

/-- Outcome of a `handleBulkAssign` call. -/
structure BulkResult where
  students : List Student
  seatMap : List SeatMapData
  history : List (String × String)
  errors : List String
deriving DecidableEq

/-- `handleBulkAssign` (lines 389-568).  `confirmed` is the result of the
`window.confirm` dialogue; `shuffledStudents` and `shuffledSeats` stand for
the in-place Fisher-Yates shuffles of `remainingUnassignedStudents` and
`remainingAvailableSeats` computed after phase 1 — theorems quantify over
them, constrained to be permutations of those lists. -/
def handleBulkAssign (students : List Student) (seatMap : List SeatMapData)
    (history : List (String × String)) (fixedSeatAssignments : List FixedSeatAssignment)
    (relations : List RelationConfigData) (confirmed : Bool)
    (shuffledStudents : List Student) (shuffledSeats : List SeatMapData) : BulkResult :=
  if (unassignedStudents students).length == 0 then
    { students := students, seatMap := seatMap, history := history, errors := [bNoStudents] }
  else if (availableSeats seatMap).length == 0 then
    { students := students, seatMap := seatMap, history := history, errors := [bNoSeats] }
  else if (availableSeats seatMap).length < (unassignedStudents students).length then
    { students := students, seatMap := seatMap, history := history,
      errors := [bTooMany (unassignedStudents students).length (availableSeats seatMap).length] }
  else if !confirmed then
    { students := students, seatMap := seatMap, history := history, errors := [] }
  else
    let init : BulkState :=
      { students := students, seatMap := seatMap, history := history,
        assignedStudentIds := [], assignedSeatIds := [], errors := [] }
    let p1 := fixedSeatAssignments.foldl bulkPhase1Step init
    let p2 := shuffledStudents.foldl (bulkPhase2Step relations) (p1, shuffledSeats)
    { students := p2.1.students, seatMap := p2.1.seatMap,
      history := p2.1.history, errors := p2.1.errors }

/-! ### Specification-side definitions

These definitions restate properties in the words of the specification, to be
compared with the embedded source functions above. -/

/-- The constraint the specification states for one relation (§4.2): a
relation not involving the student imposes nothing; the partner is resolved
by id; a partner with no assigned seat imposes nothing; a `must_co_seat`
partner's seat must lie in the adjacency set of the target seat, a
`must_not_co_seat` partner's seat must not. -/
def relationSpec (targetSeatId : String) (st : Student) (seatMap : List SeatMapData)
    (allStudents : List Student) (rel : RelationConfigData) : Prop :=
  (rel.studentId1 = st.id ∨ rel.studentId2 = st.id) →
    (match allStudents.find? (fun s =>
        s.id == (if rel.studentId1 = st.id then rel.studentId2 else rel.studentId1)) with
     | none => True
     | some partner =>
       match partner.assignedSeatId with
       | none => True
       | some partnerSeat =>
         match rel.type with
         | RelationType.co_seat => partnerSeat ∈ getAdjacentSeatIds targetSeatId seatMap
         | RelationType.no_co_seat => partnerSeat ∉ getAdjacentSeatIds targetSeatId seatMap)

/-- Basic well-formedness of a roster, needed to identify the code's notion
of an unassigned partner (`!isAssigned || !assignedSeatId`) with the
specification's (`assignedSeatId == null`): the `isAssigned` flag agrees
with the presence of a seat id, and no assigned seat id is the empty
string. -/
def WellFormedStudents (students : List Student) : Prop :=
  ∀ s ∈ students, s.isAssigned = s.assignedSeatId.isSome ∧ s.assignedSeatId ≠ some ""

/-- Student-to-seat coherence used by the reachable-state invariant: a
student pointing at seat id `x` is recorded on a seat entry carrying exactly
that id. -/
def cohereB (seatMap : List SeatMapData) (s : Student) : Bool :=
  match s.assignedSeatId with
  | none => true
  | some x => seatMap.any (fun seat => seat.seatId == x && seat.assignedStudentId == some s.id)

/-- Per-student part of the reachable-state invariant. -/
def StudentOk (seatMap : List SeatMapData) (s : Student) : Prop :=
  s.isAssigned = s.assignedSeatId.isSome ∧ s.id ≠ "" ∧ cohereB seatMap s = true

/-- The inductive invariant of reachable engine states: unique student ids,
unique seat ids, and every student satisfies `StudentOk`. -/
def Inv (students : List Student) (seatMap : List SeatMapData) : Prop :=
  (students.map Student.id).Nodup ∧ (seatMap.map SeatMapData.seatId).Nodup ∧
    ∀ s ∈ students, StudentOk seatMap s

/-- The invariant exactly as the specification states it (§8): `isAssigned`
holds iff a seat id is present, and no two distinct students hold the same
assigned seat id. -/
def ClaimInv (students : List Student) : Prop :=
  (∀ s ∈ students, s.isAssigned = true ↔ s.assignedSeatId ≠ none) ∧
    (∀ s ∈ students, ∀ t ∈ students, ∀ x,
      s.assignedSeatId = some x → t.assignedSeatId = some x → s = t)

/-- The property of a committed seat id that makes a commit preserve `Inv`:
some seat entry carries that id and is either free (in the JS-truthy sense)
or already records the committing student. -/
def seatProp (seatMap : List SeatMapData) (stId f : String) : Prop :=
  ∃ seat ∈ seatMap, seat.seatId = f ∧
    (jsTruthyS seat.assignedStudentId = false ∨ seat.assignedStudentId = some stId)

/-- The invariant carried through the phase-2 fold of the batch resolver:
the engine invariant, unchanged student ids, and the remaining-seats list
referring to distinct, currently free seat entries. -/
def Phase2Inv (ids0 : List String) (acc : BulkState × List SeatMapData) : Prop :=
  Inv acc.1.students acc.1.seatMap ∧
  acc.1.students.map Student.id = ids0 ∧
  (∀ seat ∈ acc.2, ∃ entry ∈ acc.1.seatMap, entry.seatId = seat.seatId ∧
    jsTruthyS entry.assignedStudentId = false) ∧
  (acc.2.map SeatMapData.seatId).Nodup

/-! ### Concrete fixtures for witnesses and counterexamples -/

/-- A fresh unassigned student with the given id. -/
def sampleStudent (i : String) : Student :=
  { id := i, number := "1", name := i, kana := "", info1 := "", info2 := "", info3 := "",
    isAssigned := false, assignedSeatId := none }

/-- A seat record with the given id, usability and occupant. -/
def sampleSeat (sid : String) (r c : Nat) (u : Bool) (a : Option String) : SeatMapData :=
  { seatId := sid, row := r, col := c, assignedStudentId := a, isUsable := u }

/-- Fixture for the fixed-seat failure path: `s1` has fixed seat `R1C1`,
which is unusable, while `R1C2` is free and usable. -/
def fxSeatMapC2 : List SeatMapData :=
  [sampleSeat "R1C1" 1 1 false none, sampleSeat "R1C2" 1 2 true none]

def fxStateC2 : EngineState :=
  { students := [sampleStudent "s1"], seatMap := fxSeatMapC2, history := [] }

/-- Fixture for the manual-selection failure path: both seats usable and
free. -/
def fxSeatMapC3 : List SeatMapData :=
  [sampleSeat "R1C1" 1 1 true none, sampleSeat "R1C2" 1 2 true none]

def fxStateC3 : EngineState :=
  { students := [sampleStudent "s1"], seatMap := fxSeatMapC3, history := [] }

/-- A student `s2` already seated at `R3C3`. -/
def fxSeatedS2 : Student :=
  { sampleStudent "s2" with isAssigned := true, assignedSeatId := some "R3C3" }

/-- Fixture for the unchecked fixed-seat commit: `s2` sits at `R3C3`, far
from the free usable seat `R1C1`. -/
def fxSeatMapC10 : List SeatMapData :=
  [sampleSeat "R1C1" 1 1 true none, sampleSeat "R3C3" 3 3 true (some "s2")]

def fxStateC10 : EngineState :=
  { students := [sampleStudent "s1", fxSeatedS2], seatMap := fxSeatMapC10, history := [] }

/-- A `must_co_seat` relation between `s1` and `s2`. -/
def fxRelC10 : List RelationConfigData :=
  [{ studentId1 := "s1", studentId2 := "s2", type := RelationType.co_seat }]

/-- Five unassigned students. -/
def fxFiveStudents : List Student :=
  [sampleStudent "a", sampleStudent "b", sampleStudent "c",
   sampleStudent "d", sampleStudent "e"]

/-- Four usable free seats in one row. -/
def fxFourSeats : List SeatMapData :=
  [sampleSeat "R1C1" 1 1 true none, sampleSeat "R1C2" 1 2 true none,
   sampleSeat "R1C3" 1 3 true none, sampleSeat "R1C4" 1 4 true none]

/-! ### Theorems -/

/-- One relation of the checker agrees with the specification's reading of
it, given a well-formed roster. -/
theorem relationOk_iff_relationSpec (target : String) (st : Student)
    (seatMap : List SeatMapData) (students : List Student) (rel : RelationConfigData)
    (hwf : WellFormedStudents students) :
    (relationOk (getAdjacentSeatIds target seatMap) st students rel = true ↔
      relationSpec target st seatMap students rel) := by
  unfold relationOk relationSpec
  by_cases hinv : rel.studentId1 = st.id ∨ rel.studentId2 = st.id
  · have hb : (rel.studentId1 == st.id || rel.studentId2 == st.id) = true := by
      rcases hinv with h | h <;> simp [h]
    have hifeq : (if rel.studentId1 == st.id then rel.studentId2 else rel.studentId1)
        = (if rel.studentId1 = st.id then rel.studentId2 else rel.studentId1) := by
      by_cases h : rel.studentId1 = st.id <;> simp [h]
    simp only [hb, if_true, hifeq, hinv, true_implies, forall_const]
    cases hfind : students.find?
        (fun s => s.id == if rel.studentId1 = st.id then rel.studentId2 else rel.studentId1) with
    | none => simp
    | some partner =>
      dsimp only
      obtain ⟨hiso, hnemp⟩ := hwf partner (List.mem_of_find?_eq_some hfind)
      cases hseat : partner.assignedSeatId with
      | none =>
        have hia : partner.isAssigned = false := by rw [hiso, hseat]; rfl
        simp [hia, hseat]
      | some x =>
        have hxne : ¬(x = "") := fun h => hnemp (by rw [hseat, h])
        have hia : partner.isAssigned = true := by rw [hiso, hseat]; rfl
        have hjt : jsTruthyS (some x) = true := by simp [jsTruthyS, hxne]
        simp only [hseat, hia, hjt, Bool.not_true, Bool.false_or, Bool.or_self,
          Bool.false_eq_true, if_false, Option.getD_some]
        cases rel.type <;>
          simp [List.contains, List.elem_eq_mem, decide_eq_true_iff]
  · have hb : (rel.studentId1 == st.id || rel.studentId2 == st.id) = false := by
      push_neg at hinv
      simp [hinv.1, hinv.2]
    simp [hb, hinv]

/-- **C1.** For a well-formed roster the constraint checker returns `true`
exactly when every relation satisfies the specification's per-relation
condition (partner unassigned: no constraint; `must_co_seat`: partner's seat
in the adjacency set of the target; `must_not_co_seat`: partner's seat not in
it); in particular a student involved in no relation is admissible at every
seat. -/
theorem C1_checker_characterization :
    ∀ (target : String) (st : Student) (seatMap : List SeatMapData)
      (students : List Student) (relations : List RelationConfigData),
      WellFormedStudents students →
      ((checkRelationConstraints target (some st) seatMap students relations = true ↔
          ∀ rel ∈ relations, relationSpec target st seatMap students rel) ∧
        ((∀ rel ∈ relations, rel.studentId1 ≠ st.id ∧ rel.studentId2 ≠ st.id) →
          checkRelationConstraints target (some st) seatMap students relations = true)) := by
  intro target st seatMap students relations hwf
  have hmain : checkRelationConstraints target (some st) seatMap students relations = true ↔
      ∀ rel ∈ relations, relationSpec target st seatMap students rel := by
    unfold checkRelationConstraints
    rw [List.all_eq_true]
    constructor
    · intro h rel hrel
      exact (relationOk_iff_relationSpec target st seatMap students rel hwf).mp (h rel hrel)
    · intro h rel hrel
      exact (relationOk_iff_relationSpec target st seatMap students rel hwf).mpr (h rel hrel)
  refine ⟨hmain, fun hnone => hmain.mpr ?_⟩
  intro rel hrel hinvolved
  rcases hinvolved with h | h
  · exact absurd h (hnone rel hrel).1
  · exact absurd h (hnone rel hrel).2

/-- Witness for C1 at Scenario A of the specification: a 2-seat map with
`s2` seated at `R3C3` and a `must_co_seat` relation, checked at `R1C1`. -/
theorem C1_checker_characterization_witness :
    (checkRelationConstraints "R1C1" (some (sampleStudent "s1")) fxSeatMapC10
        fxStateC10.students fxRelC10 = true ↔
      ∀ rel ∈ fxRelC10,
        relationSpec "R1C1" (sampleStudent "s1") fxSeatMapC10 fxStateC10.students rel) :=
  (C1_checker_characterization "R1C1" (sampleStudent "s1") fxSeatMapC10
    fxStateC10.students fxRelC10 (by unfold WellFormedStudents; decide)).1

/-- **C5.** `adjacentSeats(seatId, seatMap)` is empty whenever the seat id
does not parse under the source's `R(\d+)C(\d+)` search, and otherwise
contains exactly those of the four orthogonal neighbour identifiers
`R(row-1)C(col)`, `R(row+1)C(col)`, `R(row)C(col-1)`, `R(row)C(col+1)` that
textually exist as a `seatId` in the seat map (regardless of `isUsable`) and
differ from the input — never a diagonal or wrapped-around seat.  Totality of
the Lean function is the source's never-raises property. -/
theorem C5_adjacent_characterization :
    ∀ (seatId : String) (seatMap : List SeatMapData) (adjId : String),
      adjId ∈ getAdjacentSeatIds seatId seatMap ↔
        ∃ r c, parseSeatId seatId = some (r, c) ∧
          adjId ∈ potentialAdjacents (Int.ofNat r) (Int.ofNat c) ∧
          (∃ s ∈ seatMap, s.seatId = adjId) ∧ adjId ≠ seatId := by
  intro seatId seatMap adjId
  unfold getAdjacentSeatIds
  rcases h : parseSeatId seatId with _ | ⟨r, c⟩
  · simp [h]
  · simp only [h, List.mem_filter, List.any_eq_true, Bool.and_eq_true, Bool.not_eq_true',
      beq_iff_eq, beq_eq_false_iff_ne, Option.some.injEq, Prod.mk.injEq]
    constructor
    · rintro ⟨hmem, ⟨s, hs, hsid⟩, hne⟩
      exact ⟨r, c, ⟨rfl, rfl⟩, hmem, ⟨s, hs, hsid⟩, hne⟩
    · rintro ⟨r2, c2, ⟨hr, hc⟩, hmem, ⟨s, hs, hsid⟩, hne⟩
      subst hr; subst hc
      exact ⟨hmem, ⟨s, hs, hsid⟩, hne⟩

/-- **C9.** `resetAssignments` (after confirmation) clears every seat's
`assignedStudentId`, every student's `isAssigned`/`assignedSeatId`, and the
whole history, while leaving the fixed-assignment list, the relation list,
and all other seat and student fields (including `isUsable`) unchanged. -/
theorem C9_reset_frame :
    ∀ (fs : FullState) (confirmed : Bool), confirmed = true →
      (handleResetRoulette confirmed fs).history = [] ∧
      (handleResetRoulette confirmed fs).fixedSeatAssignments = fs.fixedSeatAssignments ∧
      (handleResetRoulette confirmed fs).relationConfig = fs.relationConfig ∧
      (handleResetRoulette confirmed fs).seatMap.length = fs.seatMap.length ∧
      (∀ seat ∈ (handleResetRoulette confirmed fs).seatMap, seat.assignedStudentId = none) ∧
      (∀ i : Nat,
        ((handleResetRoulette confirmed fs).seatMap.get? i).map SeatMapData.seatId
            = (fs.seatMap.get? i).map SeatMapData.seatId ∧
        ((handleResetRoulette confirmed fs).seatMap.get? i).map SeatMapData.isUsable
            = (fs.seatMap.get? i).map SeatMapData.isUsable ∧
        ((handleResetRoulette confirmed fs).seatMap.get? i).map SeatMapData.row
            = (fs.seatMap.get? i).map SeatMapData.row ∧
        ((handleResetRoulette confirmed fs).seatMap.get? i).map SeatMapData.col
            = (fs.seatMap.get? i).map SeatMapData.col) ∧
      (handleResetRoulette confirmed fs).students.length = fs.students.length ∧
      (∀ s ∈ (handleResetRoulette confirmed fs).students,
        s.isAssigned = false ∧ s.assignedSeatId = none) ∧
      (∀ i : Nat,
        ((handleResetRoulette confirmed fs).students.get? i).map Student.id
            = (fs.students.get? i).map Student.id ∧
        ((handleResetRoulette confirmed fs).students.get? i).map Student.number
            = (fs.students.get? i).map Student.number ∧
        ((handleResetRoulette confirmed fs).students.get? i).map Student.name
            = (fs.students.get? i).map Student.name ∧
        ((handleResetRoulette confirmed fs).students.get? i).map Student.kana
            = (fs.students.get? i).map Student.kana ∧
        ((handleResetRoulette confirmed fs).students.get? i).map Student.info1
            = (fs.students.get? i).map Student.info1 ∧
        ((handleResetRoulette confirmed fs).students.get? i).map Student.info2
            = (fs.students.get? i).map Student.info2 ∧
        ((handleResetRoulette confirmed fs).students.get? i).map Student.info3
            = (fs.students.get? i).map Student.info3) := by
  intro fs confirmed hc
  subst hc
  refine ⟨rfl, rfl, rfl, by simp [handleResetRoulette], ?_, ?_, by simp [handleResetRoulette],
    ?_, ?_⟩
  · intro seat hseat
    simp only [handleResetRoulette, if_pos, List.mem_map] at hseat
    obtain ⟨t, _, ht⟩ := hseat
    exact ht ▸ rfl
  · intro i
    simp only [handleResetRoulette, if_pos, List.get?_eq_getElem?, List.getElem?_map,
      Option.map_map]
    cases fs.seatMap[i]? <;> simp
  · intro s hs
    simp only [handleResetRoulette, if_pos, List.mem_map] at hs
    obtain ⟨t, _, ht⟩ := hs
    exact ⟨ht ▸ rfl, ht ▸ rfl⟩
  · intro i
    simp only [handleResetRoulette, if_pos, List.get?_eq_getElem?, List.getElem?_map,
      Option.map_map]
    cases fs.students[i]? <;> simp

/-- Witness for C9 at a concrete state. -/
theorem C9_reset_frame_witness :
    (handleResetRoulette true
      { students := [fxSeatedS2], seatMap := fxSeatMapC10, history := [("s2", "R3C3")],
        fixedSeatAssignments := [{ studentId := "s1", seatId := "R1C1" }],
        relationConfig := fxRelC10 }).history = [] ∧
    (handleResetRoulette true
      { students := [fxSeatedS2], seatMap := fxSeatMapC10, history := [("s2", "R3C3")],
        fixedSeatAssignments := [{ studentId := "s1", seatId := "R1C1" }],
        relationConfig := fxRelC10 }).fixedSeatAssignments
      = [{ studentId := "s1", seatId := "R1C1" }] :=
  ⟨(C9_reset_frame
      { students := [fxSeatedS2], seatMap := fxSeatMapC10, history := [("s2", "R3C3")],
        fixedSeatAssignments := [{ studentId := "s1", seatId := "R1C1" }],
        relationConfig := fxRelC10 } true rfl).1,
   (C9_reset_frame
      { students := [fxSeatedS2], seatMap := fxSeatMapC10, history := [("s2", "R3C3")],
        fixedSeatAssignments := [{ studentId := "s1", seatId := "R1C1" }],
        relationConfig := fxRelC10 } true rfl).2.1⟩

/-- **C7.** The batch resolver returns early with an error and commits
nothing whenever there is no unassigned student, or no available seat, or
more unassigned students than available seats. -/
theorem C7_bulk_preconditions :
    ∀ (students : List Student) (seatMap : List SeatMapData)
      (history : List (String × String)) (fixed : List FixedSeatAssignment)
      (relations : List RelationConfigData) (confirmed : Bool)
      (shuffledStudents : List Student) (shuffledSeats : List SeatMapData),
      ((unassignedStudents students).length = 0 ∨ (availableSeats seatMap).length = 0 ∨
        (availableSeats seatMap).length < (unassignedStudents students).length) →
      (handleBulkAssign students seatMap history fixed relations confirmed
          shuffledStudents shuffledSeats).students = students ∧
      (handleBulkAssign students seatMap history fixed relations confirmed
          shuffledStudents shuffledSeats).seatMap = seatMap ∧
      (handleBulkAssign students seatMap history fixed relations confirmed
          shuffledStudents shuffledSeats).history = history ∧
      (handleBulkAssign students seatMap history fixed relations confirmed
          shuffledStudents shuffledSeats).errors ≠ [] := by
  intro students seatMap history fixed relations confirmed ss sh hpre
  by_cases h1 : (unassignedStudents students).length = 0
  · simp [handleBulkAssign, h1]
  · by_cases h2 : (availableSeats seatMap).length = 0
    · simp [handleBulkAssign, h1, h2]
    · have h3 : (availableSeats seatMap).length < (unassignedStudents students).length := by
        rcases hpre with h | h | h
        · exact absurd h h1
        · exact absurd h h2
        · exact h
      simp [handleBulkAssign, h1, h2, h3]

/-- Witness for C7: five students, four seats. -/
theorem C7_bulk_preconditions_witness :
    (handleBulkAssign fxFiveStudents fxFourSeats [] [] [] true [] []).students
        = fxFiveStudents ∧
    (handleBulkAssign fxFiveStudents fxFourSeats [] [] [] true [] []).errors ≠ [] :=
  ⟨(C7_bulk_preconditions fxFiveStudents fxFourSeats [] [] [] true [] []
      (Or.inr (Or.inr (by decide)))).1,
   (C7_bulk_preconditions fxFiveStudents fxFourSeats [] [] [] true [] []
      (Or.inr (Or.inr (by decide)))).2.2.2⟩

/-- **C8, counterexample.** With 5 unassigned students and 4 usable free
seats the batch call does not commit 4 assignments and report 1 unseated
student: it fails the precondition check, reports only the
too-many-students error, and commits nothing. -/
theorem C8_counterexample :
    (handleBulkAssign fxFiveStudents fxFourSeats [] [] [] true [] []).history = [] ∧
    ((handleBulkAssign fxFiveStudents fxFourSeats [] [] [] true [] []).students.filter
        (fun s => s.isAssigned)).length = 0 ∧
    (handleBulkAssign fxFiveStudents fxFourSeats [] [] [] true [] []).errors
      = [bTooMany 5 4] := by
  decide

/-- **C8, amended.** A batch call seeing 5 unassigned students and 4
available seats returns early with the too-many-students error and commits
nothing. -/
theorem C8_amended :
    ∀ (students : List Student) (seatMap : List SeatMapData)
      (history : List (String × String)) (fixed : List FixedSeatAssignment)
      (relations : List RelationConfigData) (confirmed : Bool)
      (shuffledStudents : List Student) (shuffledSeats : List SeatMapData),
      (unassignedStudents students).length = 5 → (availableSeats seatMap).length = 4 →
      (handleBulkAssign students seatMap history fixed relations confirmed
          shuffledStudents shuffledSeats).students = students ∧
      (handleBulkAssign students seatMap history fixed relations confirmed
          shuffledStudents shuffledSeats).seatMap = seatMap ∧
      (handleBulkAssign students seatMap history fixed relations confirmed
          shuffledStudents shuffledSeats).history = history ∧
      (handleBulkAssign students seatMap history fixed relations confirmed
          shuffledStudents shuffledSeats).errors = [bTooMany 5 4] := by
  intro students seatMap history fixed relations confirmed ss sh h5 h4
  simp [handleBulkAssign, h5, h4]

/-- Witness for C8's amended statement. -/
theorem C8_amended_witness :
    (handleBulkAssign fxFiveStudents fxFourSeats [] [] [] true [] []).errors
      = [bTooMany 5 4] :=
  (C8_amended fxFiveStudents fxFourSeats [] [] [] true [] [] (by decide) (by decide)).2.2.2

/-- **C2, failing input.** The target student `s1` has fixed seat `R1C1`,
which is unusable; the specification requires the resolution to fail with no
mutation, but the source reports the fixed-seat error and then falls through
to the highlighted-seat branch, committing `R1C2` and mutating the state. -/
theorem C2_failing_input :
    (stopRoulette fxStateC2 [] [{ studentId := "s1", seatId := "R1C1" }]
        (some (sampleStudent "s1")) none (some "R1C2") true
        (availableSeats fxSeatMapC2)).error = some (eFixedUnusable "s1" "R1C1") ∧
    (stopRoulette fxStateC2 [] [{ studentId := "s1", seatId := "R1C1" }]
        (some (sampleStudent "s1")) none (some "R1C2") true
        (availableSeats fxSeatMapC2)).committed = some "R1C2" ∧
    (stopRoulette fxStateC2 [] [{ studentId := "s1", seatId := "R1C1" }]
        (some (sampleStudent "s1")) none (some "R1C2") true
        (availableSeats fxSeatMapC2)).state.history = [("s1", "R1C2")] := by
  decide

/-- **C3, counterexample.** With a manual selection `R9C9` that is not
available, the resolver does not fail without committing: it reports the
manual-seat error and then commits the highlighted seat `R1C1`. -/
theorem C3_counterexample :
    (stopRoulette fxStateC3 [] [] (some (sampleStudent "s1")) (some "R9C9")
        (some "R1C1") true (availableSeats fxSeatMapC3)).committed = some "R1C1" ∧
    (stopRoulette fxStateC3 [] [] (some (sampleStudent "s1")) (some "R9C9")
        (some "R1C1") true (availableSeats fxSeatMapC3)).error
      = some (eManualUnavailable "R9C9") := by
  decide

/-- A successful fallback search returns an element of the scanned list that
passes the guard and the constraint check. -/
theorem fallbackGo_some_mem {seats : List SeatMapData} {pred : SeatMapData → Bool}
    {fuel a : Nat} {seat : SeatMapData} (h : fallbackGo seats pred fuel a = some seat) :
    seat ∈ seats ∧ (!(seat.seatId == "") && pred seat) = true := by
  induction fuel generalizing a with
  | zero => cases h
  | succ n ih =>
    unfold fallbackGo at h
    cases hg : seats.get? (a % seats.length) with
    | none =>
      rw [hg] at h
      exact ih h
    | some seat0 =>
      rw [hg] at h
      dsimp only at h
      by_cases hp : (!(seat0.seatId == "") && pred seat0) = true
      · rw [if_pos hp] at h
        cases h
        exact ⟨List.getElem?_mem (List.get?_eq_getElem? seats _ ▸ hg), hp⟩
      · rw [if_neg hp] at h
        exact ih h

/-- `stopStep12` with a manual selection that is unavailable or inadmissible
(and no fixed assignment) produces no valid seat and reports an error. -/
theorem stopStep12_manual_invalid (state : EngineState) (relations : List RelationConfigData)
    (fixed : List FixedSeatAssignment) (st : Student) (m : String)
    (hfix : fixed.find? (fun fsa => fsa.studentId == st.id) = none) (hm : m ≠ "")
    (hbad : (availableSeats state.seatMap).find? (fun seat => seat.seatId == m) = none ∨
      checkRelationConstraints m (some st) state.seatMap state.students relations = false) :
    ∃ e, stopStep12 state relations fixed st (some m) = (none, some e) := by
  unfold stopStep12
  rw [hfix]
  have hjt : jsTruthyS (some m) = true := by simp [jsTruthyS, hm]
  simp only [hjt, if_true, Option.getD_some]
  rcases hbad with h | h
  · rw [h]
    exact ⟨eManualUnavailable m, rfl⟩
  · cases hf : (availableSeats state.seatMap).find? (fun seat => seat.seatId == m) with
    | none => exact ⟨eManualUnavailable m, rfl⟩
    | some seat =>
      dsimp only
      rw [h]
      exact ⟨eManualConstraint m, rfl⟩

/-- `stopStep12` with no fixed assignment and no manual selection yields
neither a seat nor an error. -/
theorem stopStep12_no_manual (state : EngineState) (relations : List RelationConfigData)
    (fixed : List FixedSeatAssignment) (st : Student)
    (hfix : fixed.find? (fun fsa => fsa.studentId == st.id) = none) :
    stopStep12 state relations fixed st none = (none, none) := by
  unfold stopStep12
  rw [hfix]
  rfl

/-- The highlighted-seat step threads the incoming error message through
unchanged, and the seat it produces does not depend on that message. -/
theorem stopStep3_error_thread (state : EngineState) (relations : List RelationConfigData)
    (st : Student) (highlight : Option String) (e : Option String) :
    stopStep3 state relations st highlight (none, e)
      = ((stopStep3 state relations st highlight (none, none)).1, e) := by
  unfold stopStep3
  dsimp only
  by_cases hjt : jsTruthyS highlight = true
  · simp only [hjt, if_true]
    cases hf : (availableSeats state.seatMap).find?
        (fun seat => seat.seatId == highlight.getD "") with
    | none => rfl
    | some seat =>
      dsimp only
      by_cases hc : checkRelationConstraints (highlight.getD "") (some st) state.seatMap
          state.students relations = true
      · simp [hc]
      · simp [hc]
  · simp [hjt]

/-- A seat produced by the highlighted-seat step is either the incoming one
or an available seat passing the constraint check. -/
theorem stopStep3_cases {state : EngineState} {relations : List RelationConfigData}
    {st : Student} {highlight : Option String} {prev : Option String × Option String}
    {f : String} (h : (stopStep3 state relations st highlight prev).1 = some f) :
    prev.1 = some f ∨
      ((∃ seat ∈ availableSeats state.seatMap, seat.seatId = f) ∧
        checkRelationConstraints f (some st) state.seatMap state.students relations = true) := by
  unfold stopStep3 at h
  cases hp : prev.1 with
  | some g =>
    rw [hp] at h
    dsimp only at h
    exact Or.inl (hp ▸ h)
  | none =>
    rw [hp] at h
    dsimp only at h
    by_cases hjt : jsTruthyS highlight = true
    · rw [if_pos hjt] at h
      cases hf : (availableSeats state.seatMap).find?
          (fun seat => seat.seatId == highlight.getD "") with
      | none =>
        rw [hf] at h
        rw [hp] at h
        cases h
      | some seat =>
        rw [hf] at h
        dsimp only at h
        by_cases hc : checkRelationConstraints (highlight.getD "") (some st) state.seatMap
            state.students relations = true
        · rw [if_pos hc] at h
          cases h
          refine Or.inr ⟨⟨seat, List.mem_of_find?_eq_some hf, ?_⟩, hc⟩
          have := List.find?_some hf
          simpa using this
        · rw [if_neg hc] at h
          rw [hp] at h
          cases h
    · rw [if_neg hjt] at h
      rw [hp] at h
      cases h

/-- The assignment state and committed seat produced by `stopFinish` do not
depend on the pending error message. -/
theorem stopFinish_error_irrelevant (state : EngineState)
    (relations : List RelationConfigData) (st : Student) (shuffled : List SeatMapData)
    (v : Option String) (e1 e2 : Option String) :
    (stopFinish state relations st shuffled (v, e1)).state
        = (stopFinish state relations st shuffled (v, e2)).state ∧
      (stopFinish state relations st shuffled (v, e1)).committed
        = (stopFinish state relations st shuffled (v, e2)).committed := by
  cases v with
  | some f => exact ⟨rfl, rfl⟩
  | none =>
    unfold stopFinish
    dsimp only
    cases hfb : fallbackGo shuffled
        (fun seat => checkRelationConstraints seat.seatId (some st) state.seatMap
          state.students relations) 100 0 with
    | none => exact ⟨rfl, rfl⟩
    | some seat => exact ⟨rfl, rfl⟩

/-- `stopFinish` keeps a pending error message on every path. -/
theorem stopFinish_error_kept (state : EngineState) (relations : List RelationConfigData)
    (st : Student) (shuffled : List SeatMapData) (v : Option String) (e : String) :
    (stopFinish state relations st shuffled (v, some e)).error ≠ none := by
  cases v with
  | some f => simp [stopFinish]
  | none =>
    unfold stopFinish
    dsimp only
    cases hfb : fallbackGo shuffled
        (fun seat => checkRelationConstraints seat.seatId (some st) state.seatMap
          state.students relations) 100 0 with
    | none => simp
    | some seat => simp

/-- A seat committed by `stopFinish` is the one handed in by steps 1-3 or a
shuffled seat passing the constraint check. -/
theorem stopFinish_committed_cases {state : EngineState}
    {relations : List RelationConfigData} {st : Student} {shuffled : List SeatMapData}
    {prev : Option String × Option String} {f : String}
    (h : (stopFinish state relations st shuffled prev).committed = some f) :
    prev.1 = some f ∨
      (∃ seat ∈ shuffled, seat.seatId = f ∧
        checkRelationConstraints f (some st) state.seatMap state.students relations = true) := by
  unfold stopFinish at h
  cases hp : prev.1 with
  | some g =>
    rw [hp] at h
    cases h
    exact Or.inl rfl
  | none =>
    rw [hp] at h
    dsimp only at h
    cases hfb : fallbackGo shuffled
        (fun seat => checkRelationConstraints seat.seatId (some st) state.seatMap
          state.students relations) 100 0 with
    | none => rw [hfb] at h; cases h
    | some seat =>
      rw [hfb] at h
      cases h
      obtain ⟨hmem, hpred⟩ := fallbackGo_some_mem hfb
      rw [Bool.and_eq_true] at hpred
      exact Or.inr ⟨seat, hmem, rfl, hpred.2⟩

/-- Committing does not change any student id. -/
theorem commitStudents_map_id (stId X : String) (students : List Student) :
    (commitStudents stId X students).map Student.id = students.map Student.id := by
  unfold commitStudents
  rw [List.map_map]
  apply List.map_congr_left
  intro s _
  by_cases h : (s.id == stId) = true <;> simp [h, Function.comp]

/-- Committing does not change any seat id. -/
theorem commitSeatMap_map_seatId (stId X : String) (seatMap : List SeatMapData) :
    (commitSeatMap stId X seatMap).map SeatMapData.seatId = seatMap.map SeatMapData.seatId := by
  unfold commitSeatMap
  rw [List.map_map]
  apply List.map_congr_left
  intro s _
  by_cases h : (s.seatId == X) = true <;> simp [h, Function.comp]

/-- Two roster members with the same id are the same student. -/
theorem student_id_inj {students : List Student}
    (hnd : (students.map Student.id).Nodup) {s t : Student}
    (hs : s ∈ students) (ht : t ∈ students) (h : s.id = t.id) : s = t :=
  List.inj_on_of_nodup_map hnd hs ht h

/-- Two seat-map entries with the same seat id are the same entry. -/
theorem seat_id_inj {seatMap : List SeatMapData}
    (hnd : (seatMap.map SeatMapData.seatId).Nodup) {s t : SeatMapData}
    (hs : s ∈ seatMap) (ht : t ∈ seatMap) (h : s.seatId = t.seatId) : s = t :=
  List.inj_on_of_nodup_map hnd hs ht h

/-- Core preservation lemma: committing a roster member to a seat entry that
is free (or already records that student) preserves the engine invariant. -/
theorem inv_commit {students : List Student} {seatMap : List SeatMapData} {stId X : String}
    (hInv : Inv students seatMap) (hmem : ∃ s ∈ students, s.id = stId)
    (hseat : seatProp seatMap stId X) :
    Inv (commitStudents stId X students) (commitSeatMap stId X seatMap) := by
  obtain ⟨hidnd, hsidnd, hok⟩ := hInv
  obtain ⟨s0, hs0mem, hs0id⟩ := hmem
  obtain ⟨seat0, hseat0mem, hseat0id, hseat0occ⟩ := hseat
  refine ⟨commitStudents_map_id stId X students ▸ hidnd,
    commitSeatMap_map_seatId stId X seatMap ▸ hsidnd, ?_⟩
  intro s hs
  unfold commitStudents at hs
  rw [List.mem_map] at hs
  obtain ⟨t, htmem, hts⟩ := hs
  obtain ⟨hiso, hidne, hco⟩ := hok t htmem
  by_cases hid : (t.id == stId) = true
  · have hteq : t.id = stId := by simpa using hid
    have ht : s = { t with isAssigned := true, assignedSeatId := some X } := by
      rw [← hts]; simp [hid]
    refine ⟨by rw [ht]; rfl, by rw [ht]; exact hidne, ?_⟩
    unfold cohereB
    rw [ht]
    dsimp only
    rw [List.any_eq_true]
    refine ⟨{ seat0 with assignedStudentId := some stId }, ?_, ?_⟩
    · unfold commitSeatMap
      rw [List.mem_map]
      exact ⟨seat0, hseat0mem, by simp [hseat0id]⟩
    · simp [hseat0id, hteq]
  · have hteq : ¬(t.id = stId) := by simpa using hid
    have ht : s = t := by rw [← hts]; simp [hid]
    rw [ht]
    refine ⟨hiso, hidne, ?_⟩
    unfold cohereB at hco ⊢
    cases hassign : t.assignedSeatId with
    | none => rfl
    | some y =>
      rw [hassign] at hco
      rw [List.any_eq_true] at hco ⊢
      obtain ⟨e, hemem, hepred⟩ := hco
      rw [Bool.and_eq_true, beq_iff_eq, beq_iff_eq] at hepred
      obtain ⟨heid, heassigned⟩ := hepred
      by_cases hyx : y = X
      · exfalso
        have heq0 : e = seat0 :=
          seat_id_inj hsidnd hemem hseat0mem (by rw [heid, hyx, hseat0id])
        rcases hseat0occ with hocc | hocc
        · rw [← heq0, heassigned] at hocc
          simp only [jsTruthyS, Bool.not_eq_false', beq_iff_eq] at hocc
          exact hidne hocc
        · rw [← heq0, heassigned] at hocc
          exact hteq (Option.some.injEq _ _ ▸ hocc)
      · refine ⟨e, ?_, ?_⟩
        · unfold commitSeatMap
          rw [List.mem_map]
          refine ⟨e, hemem, ?_⟩
          have : (e.seatId == X) = false := by simp [heid, hyx]
          simp [this]
        · simp [heid, heassigned]

/-- The engine invariant implies the invariant as the specification words
it. -/
theorem inv_claim {students : List Student} {seatMap : List SeatMapData}
    (h : Inv students seatMap) : ClaimInv students := by
  obtain ⟨hidnd, hsidnd, hok⟩ := h
  constructor
  · intro s hs
    have hiso := (hok s hs).1
    cases hassign : s.assignedSeatId with
    | none => rw [hassign] at hiso; simp [hiso]
    | some x => rw [hassign] at hiso; simp [hiso]
  · intro s hs t ht x hsx htx
    have hcs := (hok s hs).2.2
    have hct := (hok t ht).2.2
    unfold cohereB at hcs hct
    rw [hsx] at hcs
    rw [htx] at hct
    rw [List.any_eq_true] at hcs hct
    obtain ⟨es, hesmem, hespred⟩ := hcs
    obtain ⟨et, hetmem, hetpred⟩ := hct
    rw [Bool.and_eq_true, beq_iff_eq, beq_iff_eq] at hespred hetpred
    have hee : es = et :=
      seat_id_inj hsidnd hesmem hetmem (by rw [hespred.1, hetpred.1])
    have hsid : s.id = t.id := by
      have := hespred.2
      rw [hee, hetpred.2] at this
      exact (Option.some.injEq _ _ ▸ this.symm)
    exact student_id_inj hidnd hs ht hsid

/-- Every available seat supports a commit of any student. -/
theorem avail_seatProp {seatMap : List SeatMapData} {seat : SeatMapData}
    (h : seat ∈ availableSeats seatMap) (stId : String) :
    seatProp seatMap stId seat.seatId := by
  unfold availableSeats at h
  rw [List.mem_filter] at h
  obtain ⟨hm, hp⟩ := h
  rw [Bool.and_eq_true] at hp
  exact ⟨seat, hm, rfl, Or.inl (by simpa using hp.2)⟩

/-- A seat validated by steps 1-2 supports the commit. -/
theorem stopStep12_seatProp {state : EngineState} {relations : List RelationConfigData}
    {fixed : List FixedSeatAssignment} {st : Student} {manual : Option String} {f : String}
    (h : (stopStep12 state relations fixed st manual).1 = some f) :
    seatProp state.seatMap st.id f := by
  unfold stopStep12 at h
  cases hf : fixed.find? (fun fsa => fsa.studentId == st.id) with
  | some fa =>
    rw [hf] at h
    dsimp only at h
    cases hfs : state.seatMap.find? (fun seat => seat.seatId == fa.seatId) with
    | none => rw [hfs] at h; cases h
    | some seat =>
      rw [hfs] at h
      dsimp only at h
      by_cases hu : (!seat.isUsable) = true
      · rw [if_pos hu] at h; cases h
      · rw [if_neg hu] at h
        by_cases hocc : (jsTruthyS seat.assignedStudentId
            && !(seat.assignedStudentId == some st.id)) = true
        · rw [if_pos hocc] at h; cases h
        · rw [if_neg hocc] at h
          cases h
          refine ⟨seat, List.mem_of_find?_eq_some hfs, ?_, ?_⟩
          · have := List.find?_some hfs
            simpa using this
          · rw [Bool.and_eq_true] at hocc
            push_neg at hocc
            by_cases hjt : jsTruthyS seat.assignedStudentId = true
            · have h2 := hocc hjt
              have : (seat.assignedStudentId == some st.id) = true := by
                revert h2
                cases seat.assignedStudentId == some st.id <;> simp
              exact Or.inr (by simpa using this)
            · exact Or.inl (by revert hjt; cases jsTruthyS seat.assignedStudentId <;> simp)
  | none =>
    rw [hf] at h
    dsimp only at h
    by_cases hjt : jsTruthyS manual = true
    · rw [if_pos hjt] at h
      cases hfind : (availableSeats state.seatMap).find?
          (fun seat => seat.seatId == manual.getD "") with
      | none => rw [hfind] at h; cases h
      | some seat =>
        rw [hfind] at h
        dsimp only at h
        by_cases hc : checkRelationConstraints (manual.getD "") (some st) state.seatMap
            state.students relations = true
        · rw [if_pos hc] at h
          cases h
          have hsid : seat.seatId = manual.getD "" := by
            have := List.find?_some hfind
            simpa using this
          exact hsid ▸ avail_seatProp (List.mem_of_find?_eq_some hfind) st.id
        · rw [if_neg hc] at h; cases h
    · rw [if_neg hjt] at h; cases h

/-- The state produced by a stop call is either untouched or a commit of the
selected student to a seat supporting it. -/
theorem stop_result_cases (state : EngineState) (relations : List RelationConfigData)
    (fixed : List FixedSeatAssignment) (selected : Option Student)
    (manual highlight : Option String) (running : Bool) (shuffled : List SeatMapData)
    (hsh : ∀ seat ∈ shuffled, seat ∈ availableSeats state.seatMap) :
    (stopRoulette state relations fixed selected manual highlight running shuffled).state
        = state ∨
      ∃ st f, selected = some st ∧ seatProp state.seatMap st.id f ∧
        (stopRoulette state relations fixed selected manual highlight running
          shuffled).state = commitAssign st.id f state := by
  unfold stopRoulette
  cases running with
  | false => exact Or.inl rfl
  | true =>
    simp only [Bool.not_true, Bool.false_eq_true, if_false]
    cases selected with
    | none => exact Or.inl rfl
    | some st =>
      dsimp only
      cases hv : (stopStep3 state relations st highlight
          (stopStep12 state relations fixed st manual)).1 with
      | some f =>
        have hsp : seatProp state.seatMap st.id f := by
          rcases stopStep3_cases hv with h12 | ⟨⟨seat, hmem, hsid⟩, _⟩
          · exact stopStep12_seatProp h12
          · exact hsid ▸ avail_seatProp hmem st.id
        refine Or.inr ⟨st, f, rfl, hsp, ?_⟩
        unfold stopFinish
        rw [hv]
      | none =>
        unfold stopFinish
        rw [hv]
        dsimp only
        cases hfb : fallbackGo shuffled
            (fun seat => checkRelationConstraints seat.seatId (some st) state.seatMap
              state.students relations) 100 0 with
        | none => exact Or.inl rfl
        | some seat =>
          obtain ⟨hmem, _⟩ := fallbackGo_some_mem hfb
          exact Or.inr ⟨st, seat.seatId, rfl,
            avail_seatProp (hsh seat hmem) st.id, rfl⟩

/-- A single-draw stop preserves the engine invariant. -/
theorem inv_stopRoulette (state : EngineState) (relations : List RelationConfigData)
    (fixed : List FixedSeatAssignment) (selected : Option Student)
    (manual highlight : Option String) (running : Bool) (shuffled : List SeatMapData)
    (hInv : Inv state.students state.seatMap)
    (hsel : ∀ st, selected = some st → ∃ s ∈ state.students, s.id = st.id)
    (hsh : ∀ seat ∈ shuffled, seat ∈ availableSeats state.seatMap) :
    Inv (stopRoulette state relations fixed selected manual highlight running
        shuffled).state.students
      (stopRoulette state relations fixed selected manual highlight running
        shuffled).state.seatMap := by
  rcases stop_result_cases state relations fixed selected manual highlight running shuffled
      hsh with hsame | ⟨st, f, hselst, hsp, hcommit⟩
  · rw [hsame]; exact hInv
  · rw [hcommit]
    exact inv_commit hInv (hsel st hselst) hsp

/-- A fold step invariant transfers to the whole fold. -/
theorem foldl_preserve {α β : Type} (P : α → Prop) (f : α → β → α) :
    ∀ (l : List β) (init : α), P init → (∀ acc b, b ∈ l → P acc → P (f acc b)) →
      P (l.foldl f init) := by
  intro l
  induction l with
  | nil => intro init h _; exact h
  | cons x xs ih =>
    intro init h hstep
    exact ih (f init x) (hstep init x (List.mem_cons_self x xs) h)
      (fun acc b hb hacc => hstep acc b (List.mem_cons_of_mem x hb) hacc)

/-- A phase-1 step of the batch resolver preserves the engine invariant. -/
theorem inv_bulkPhase1Step (bs : BulkState) (fa : FixedSeatAssignment)
    (h : Inv bs.students bs.seatMap) :
    Inv (bulkPhase1Step bs fa).students (bulkPhase1Step bs fa).seatMap := by
  unfold bulkPhase1Step
  cases hfind : bs.students.find? (fun s => s.id == fa.studentId) with
  | none => exact h
  | some student =>
    dsimp only
    cases hfs : bs.seatMap.find? (fun s => s.seatId == fa.seatId) with
    | none => exact h
    | some fixedSeat =>
      dsimp only
      by_cases hu : (!fixedSeat.isUsable) = true
      · rw [if_pos hu]; exact h
      · rw [if_neg hu]
        by_cases hocc : (jsTruthyS fixedSeat.assignedStudentId
            && !(fixedSeat.assignedStudentId == some student.id)) = true
        · rw [if_pos hocc]; exact h
        · rw [if_neg hocc]
          by_cases hs1 : bs.assignedStudentIds.contains student.id = true
          · rw [if_pos hs1]; exact h
          · rw [if_neg hs1]
            by_cases hs2 : bs.assignedSeatIds.contains fixedSeat.seatId = true
            · rw [if_pos hs2]; exact h
            · rw [if_neg hs2]
              refine inv_commit h ⟨student, List.mem_of_find?_eq_some hfind, rfl⟩
                ⟨fixedSeat, List.mem_of_find?_eq_some hfs, rfl, ?_⟩
              rw [Bool.and_eq_true] at hocc
              push_neg at hocc
              by_cases hjt : jsTruthyS fixedSeat.assignedStudentId = true
              · have h2 := hocc hjt
                have : (fixedSeat.assignedStudentId == some student.id) = true := by
                  revert h2
                  cases fixedSeat.assignedStudentId == some student.id <;> simp
                exact Or.inr (by simpa using this)
              · exact Or.inl (by
                  revert hjt
                  cases jsTruthyS fixedSeat.assignedStudentId <;> simp)

/-- Decomposition of a successful `findRemove`. -/
theorem findRemove_eq_some {p : SeatMapData → Bool} :
    ∀ {l : List SeatMapData} {x : SeatMapData} {rest : List SeatMapData},
      findRemove p l = some (x, rest) →
      p x = true ∧ ∃ l1 l2, l = l1 ++ x :: l2 ∧ rest = l1 ++ l2 := by
  intro l
  induction l with
  | nil => intro x rest h; cases h
  | cons a as ih =>
    intro x rest h
    unfold findRemove at h
    by_cases hp : p a = true
    · rw [if_pos hp] at h
      cases h
      exact ⟨hp, [], as, rfl, rfl⟩
    · rw [if_neg hp] at h
      cases hfr : findRemove p as with
      | none => rw [hfr] at h; cases h
      | some pr =>
        rw [hfr] at h
        obtain ⟨y, ys⟩ := pr
        simp only [Option.map_some'] at h
        cases h
        obtain ⟨hpy, l1, l2, hsplit, hrest⟩ := ih hfr
        exact ⟨hpy, a :: l1, l2, by rw [List.cons_append, ← hsplit],
          by rw [List.cons_append, ← hrest]⟩

/-- A phase-2 step preserves the phase-2 invariant, for any student whose id
belongs to the roster snapshot. -/
theorem phase2_step_preserve (relations : List RelationConfigData) (ids0 : List String)
    (acc : BulkState × List SeatMapData) (x : Student) (hx : x.id ∈ ids0)
    (h : Phase2Inv ids0 acc) : Phase2Inv ids0 (bulkPhase2Step relations acc x) := by
  obtain ⟨hInv, hids, hrem, hnd⟩ := h
  unfold bulkPhase2Step
  by_cases hskip : acc.1.assignedStudentIds.contains x.id = true
  · rw [if_pos hskip]; exact ⟨hInv, hids, hrem, hnd⟩
  · rw [if_neg hskip]
    cases hfr : findRemove (fun seat =>
        !(seat.seatId == "") && !(acc.1.assignedSeatIds.contains seat.seatId)
          && checkRelationConstraints seat.seatId (some x) acc.1.seatMap acc.1.students
            relations) acc.2 with
    | none => exact ⟨hInv, hids, hrem, hnd⟩
    | some pr =>
      obtain ⟨seat, rest⟩ := pr
      dsimp only
      obtain ⟨hpred, l1, l2, hsplit, hrest⟩ := findRemove_eq_some hfr
      have hseatmem : seat ∈ acc.2 := by
        rw [hsplit]
        exact List.mem_append_right l1 (List.mem_cons_self seat l2)
      obtain ⟨entry, hentrymem, hentryid, hentryfree⟩ := hrem seat hseatmem
      have hmem0 : ∃ s ∈ acc.1.students, s.id = x.id := by
        have hx2 : x.id ∈ acc.1.students.map Student.id := by rw [hids]; exact hx
        rw [List.mem_map] at hx2
        obtain ⟨s, hs, hsid⟩ := hx2
        exact ⟨s, hs, hsid⟩
      have hndsplit := hnd
      rw [hsplit, List.map_append, List.map_cons] at hndsplit
      refine ⟨inv_commit hInv hmem0 ⟨entry, hentrymem, hentryid, Or.inl hentryfree⟩,
        ?_, ?_, ?_⟩
      · dsimp only
        rw [commitStudents_map_id]
        exact hids
      · intro y hy
        rw [hrest] at hy
        have hymem : y ∈ acc.2 := by
          rw [hsplit]
          rcases List.mem_append.mp hy with h1 | h2
          · exact List.mem_append_left _ h1
          · exact List.mem_append_right _ (List.mem_cons_of_mem seat h2)
        have hyne : y.seatId ≠ seat.seatId := by
          intro hcon
          rcases List.mem_append.mp hy with h1 | h2
          · have hdisj := (List.nodup_append.mp hndsplit).2.2
            exact hdisj (List.mem_map_of_mem SeatMapData.seatId h1)
              (hcon ▸ List.mem_cons_self seat.seatId (l2.map SeatMapData.seatId))
          · have hcons := (List.nodup_append.mp hndsplit).2.1
            rw [List.nodup_cons] at hcons
            exact hcons.1 (hcon ▸ List.mem_map_of_mem SeatMapData.seatId h2)
        obtain ⟨e, hemem, heid, hefree⟩ := hrem y hymem
        refine ⟨e, ?_, heid, hefree⟩
        dsimp only
        unfold commitSeatMap
        rw [List.mem_map]
        refine ⟨e, hemem, ?_⟩
        have : (e.seatId == seat.seatId) = false := by
          simp [heid, hyne]
        simp [this]
      · rw [hrest]
        rw [List.map_append]
        have hsub : (l1.map SeatMapData.seatId ++ l2.map SeatMapData.seatId).Sublist
            (l1.map SeatMapData.seatId ++ seat.seatId :: l2.map SeatMapData.seatId) :=
          List.Sublist.append_left (List.sublist_cons_self seat.seatId _) _
        exact hndsplit.sublist hsub

/-- The reset handler preserves (indeed re-establishes) the engine
invariant. -/
theorem inv_reset (confirmed : Bool) (fs : FullState)
    (h : Inv fs.students fs.seatMap) :
    Inv (handleResetRoulette confirmed fs).students
      (handleResetRoulette confirmed fs).seatMap := by
  obtain ⟨hidnd, hsidnd, hok⟩ := h
  unfold handleResetRoulette
  cases confirmed with
  | false => exact ⟨hidnd, hsidnd, hok⟩
  | true =>
    simp only [if_true]
    refine ⟨?_, ?_, ?_⟩
    · rw [List.map_map]
      have : (Student.id ∘ fun s : Student =>
          { s with isAssigned := false, assignedSeatId := none }) = Student.id := by
        funext s; rfl
      rw [this]
      exact hidnd
    · rw [List.map_map]
      have : (SeatMapData.seatId ∘ fun seat : SeatMapData =>
          { seat with assignedStudentId := none }) = SeatMapData.seatId := by
        funext s; rfl
      rw [this]
      exact hsidnd
    · intro s hs
      rw [List.mem_map] at hs
      obtain ⟨t, htmem, hts⟩ := hs
      refine ⟨by rw [← hts]; rfl, by rw [← hts]; exact (hok t htmem).2.1, ?_⟩
      rw [← hts]
      rfl

/-- A batch-assign call preserves the engine invariant.  The shuffled lists
are constrained to be permutations of the lists the source shuffles in
place: the post-phase-1 unassigned students and available seats. -/
theorem inv_bulkAssign (students : List Student) (seatMap : List SeatMapData)
    (history : List (String × String)) (fixed : List FixedSeatAssignment)
    (relations : List RelationConfigData) (confirmed : Bool)
    (shuffledStudents : List Student) (shuffledSeats : List SeatMapData)
    (hInv : Inv students seatMap)
    (hsperm : shuffledStudents.Perm (unassignedStudents
      (fixed.foldl bulkPhase1Step
        { students := students, seatMap := seatMap, history := history,
          assignedStudentIds := [], assignedSeatIds := [], errors := [] }).students))
    (hseatperm : shuffledSeats.Perm (availableSeats
      (fixed.foldl bulkPhase1Step
        { students := students, seatMap := seatMap, history := history,
          assignedStudentIds := [], assignedSeatIds := [], errors := [] }).seatMap)) :
    Inv (handleBulkAssign students seatMap history fixed relations confirmed
        shuffledStudents shuffledSeats).students
      (handleBulkAssign students seatMap history fixed relations confirmed
        shuffledStudents shuffledSeats).seatMap := by
  unfold handleBulkAssign
  by_cases h1 : ((unassignedStudents students).length == 0) = true
  · rw [if_pos h1]; exact hInv
  · rw [if_neg h1]
    by_cases h2 : ((availableSeats seatMap).length == 0) = true
    · rw [if_pos h2]; exact hInv
    · rw [if_neg h2]
      by_cases h3 : ((availableSeats seatMap).length < (unassignedStudents students).length)
      · rw [if_pos h3]; exact hInv
      · rw [if_neg h3]
        by_cases h4 : (!confirmed) = true
        · rw [if_pos h4]; exact hInv
        · rw [if_neg h4]
          dsimp only
          set init : BulkState :=
            { students := students, seatMap := seatMap, history := history,
              assignedStudentIds := [], assignedSeatIds := [], errors := [] } with hinit
          set p1 := fixed.foldl bulkPhase1Step init with hp1def
          have hp1 : Inv p1.students p1.seatMap :=
            foldl_preserve (fun bs => Inv bs.students bs.seatMap) bulkPhase1Step fixed init
              hInv (fun acc b _ h => inv_bulkPhase1Step acc b h)
          have hper2 : Phase2Inv (p1.students.map Student.id) (p1, shuffledSeats) := by
            refine ⟨hp1, rfl, ?_, ?_⟩
            · intro seat hs
              have hsa : seat ∈ availableSeats p1.seatMap := hseatperm.mem_iff.mp hs
              unfold availableSeats at hsa
              rw [List.mem_filter] at hsa
              obtain ⟨hm, hp⟩ := hsa
              rw [Bool.and_eq_true] at hp
              exact ⟨seat, hm, rfl, by simpa using hp.2⟩
            · have hmapperm : (shuffledSeats.map SeatMapData.seatId).Perm
                  ((availableSeats p1.seatMap).map SeatMapData.seatId) :=
                hseatperm.map _
              rw [hmapperm.nodup_iff]
              have hsub : (availableSeats p1.seatMap).Sublist p1.seatMap :=
                List.filter_sublist _
              exact hp1.2.1.sublist (hsub.map _)
          have hfold := foldl_preserve (Phase2Inv (p1.students.map Student.id))
            (bulkPhase2Step relations) shuffledStudents (p1, shuffledSeats) hper2
            (by
              intro acc b hb hacc
              apply phase2_step_preserve
              · have hbm : b ∈ unassignedStudents p1.students := hsperm.mem_iff.mp hb
                unfold unassignedStudents at hbm
                rw [List.mem_filter] at hbm
                exact List.mem_map_of_mem Student.id hbm.1
              · exact hacc)
          exact hfold.1

/-- **C4.** Every engine operation preserves the reachable-state invariant
`Inv`, and `Inv` entails the invariant exactly as the specification states
it: `isAssigned` holds iff a seat id is present and no two distinct students
hold the same assigned seat id.  Each commit updates the seat record and the
student record together (`commitAssign`), which is what the preservation
proofs rest on. -/
theorem C4_invariant_preservation :
    (∀ (students : List Student) (seatMap : List SeatMapData),
      Inv students seatMap → ClaimInv students) ∧
    (∀ (state : EngineState) (relations : List RelationConfigData)
        (fixed : List FixedSeatAssignment) (selected : Option Student)
        (manual highlight : Option String) (running : Bool) (shuffled : List SeatMapData),
      Inv state.students state.seatMap →
      (∀ st, selected = some st → ∃ s ∈ state.students, s.id = st.id) →
      (∀ seat ∈ shuffled, seat ∈ availableSeats state.seatMap) →
      Inv (stopRoulette state relations fixed selected manual highlight running
          shuffled).state.students
        (stopRoulette state relations fixed selected manual highlight running
          shuffled).state.seatMap) ∧
    (∀ (students : List Student) (seatMap : List SeatMapData)
        (history : List (String × String)) (fixed : List FixedSeatAssignment)
        (relations : List RelationConfigData) (confirmed : Bool)
        (shuffledStudents : List Student) (shuffledSeats : List SeatMapData),
      Inv students seatMap →
      shuffledStudents.Perm (unassignedStudents
        (fixed.foldl bulkPhase1Step
          { students := students, seatMap := seatMap, history := history,
            assignedStudentIds := [], assignedSeatIds := [], errors := [] }).students) →
      shuffledSeats.Perm (availableSeats
        (fixed.foldl bulkPhase1Step
          { students := students, seatMap := seatMap, history := history,
            assignedStudentIds := [], assignedSeatIds := [], errors := [] }).seatMap) →
      Inv (handleBulkAssign students seatMap history fixed relations confirmed
          shuffledStudents shuffledSeats).students
        (handleBulkAssign students seatMap history fixed relations confirmed
          shuffledStudents shuffledSeats).seatMap) ∧
    (∀ (confirmed : Bool) (fs : FullState),
      Inv fs.students fs.seatMap →
      Inv (handleResetRoulette confirmed fs).students
        (handleResetRoulette confirmed fs).seatMap) :=
  ⟨fun _ _ h => inv_claim h, inv_stopRoulette, inv_bulkAssign, inv_reset⟩

/-- Witness for C4: the invariant holds on a concrete state and is preserved
by a concrete stop call that commits the highlighted seat. -/
theorem C4_invariant_preservation_witness :
    Inv fxStateC3.students fxStateC3.seatMap ∧
    Inv (stopRoulette fxStateC3 [] [] (some (sampleStudent "s1")) none (some "R1C1") true
        (availableSeats fxSeatMapC3)).state.students
      (stopRoulette fxStateC3 [] [] (some (sampleStudent "s1")) none (some "R1C1") true
        (availableSeats fxSeatMapC3)).state.seatMap :=
  ⟨by unfold Inv StudentOk cohereB; decide,
   C4_invariant_preservation.2.1 fxStateC3 [] [] (some (sampleStudent "s1")) none
     (some "R1C1") true (availableSeats fxSeatMapC3)
     (by unfold Inv StudentOk cohereB; decide)
     (by
       intro st h
       cases h
       exact ⟨sampleStudent "s1", List.mem_cons_self _ _, rfl⟩)
     (fun seat h => h)⟩

/-- **C3, amended.** With no fixed assignment and an unavailable or
inadmissible manual selection, `stopDraw` reports an error, never commits
the manually selected seat, and otherwise treats the assignment state
exactly as if no manual selection had been made: it falls through to the
highlighted-seat and randomized fallback branches. -/
theorem C3_amended :
    ∀ (state : EngineState) (relations : List RelationConfigData)
      (fixed : List FixedSeatAssignment) (st : Student) (m : String)
      (highlight : Option String) (shuffled : List SeatMapData),
      fixed.find? (fun fsa => fsa.studentId == st.id) = none →
      m ≠ "" →
      ((availableSeats state.seatMap).find? (fun seat => seat.seatId == m) = none ∨
        checkRelationConstraints m (some st) state.seatMap state.students relations = false) →
      shuffled.Perm (availableSeats state.seatMap) →
      (stopRoulette state relations fixed (some st) (some m) highlight true shuffled).state
          = (stopRoulette state relations fixed (some st) none highlight true shuffled).state ∧
      (stopRoulette state relations fixed (some st) (some m) highlight true shuffled).committed
          = (stopRoulette state relations fixed (some st) none highlight true shuffled).committed ∧
      (stopRoulette state relations fixed (some st) (some m) highlight true shuffled).error
          ≠ none ∧
      (stopRoulette state relations fixed (some st) (some m) highlight true shuffled).committed
          ≠ some m := by
  intro state relations fixed st m highlight shuffled hfix hm hbad hperm
  obtain ⟨e, h12⟩ := stopStep12_manual_invalid state relations fixed st m hfix hm hbad
  have h12n := stopStep12_no_manual state relations fixed st hfix
  have hrun : stopRoulette state relations fixed (some st) (some m) highlight true shuffled
      = stopFinish state relations st shuffled
        (stopStep3 state relations st highlight (none, some e)) := by
    simp only [stopRoulette, Bool.not_true, Bool.false_eq_true, if_false, h12]
  have hrun2 : stopRoulette state relations fixed (some st) none highlight true shuffled
      = stopFinish state relations st shuffled
        (stopStep3 state relations st highlight (none, none)) := by
    simp only [stopRoulette, Bool.not_true, Bool.false_eq_true, if_false, h12n]
  rw [hrun, hrun2]
  rw [stopStep3_error_thread state relations st highlight (some e),
    stopStep3_error_thread state relations st highlight none]
  obtain ⟨hst, hcm⟩ := stopFinish_error_irrelevant state relations st shuffled
    (stopStep3 state relations st highlight (none, none)).1 (some e) none
  refine ⟨hst, hcm, stopFinish_error_kept state relations st shuffled _ e, ?_⟩
  intro hcommit
  rcases stopFinish_committed_cases hcommit with h3 | ⟨seat, hmem, hsid, hchk⟩
  · rcases stopStep3_cases h3 with h0 | ⟨⟨seat, hmem, hsid⟩, hchk⟩
    · cases h0
    · rcases hbad with hb | hb
      · rw [List.find?_eq_none] at hb
        exact hb seat hmem (by simp [hsid])
      · rw [hb] at hchk
        cases hchk
  · have hmem2 : seat ∈ availableSeats state.seatMap := hperm.mem_iff.mp hmem
    rcases hbad with hb | hb
    · rw [List.find?_eq_none] at hb
      exact hb seat hmem2 (by simp [hsid])
    · rw [hb] at hchk
      cases hchk

/-- Witness for C3's amended statement at the `R9C9` fixture. -/
theorem C3_amended_witness :
    (stopRoulette fxStateC3 [] [] (some (sampleStudent "s1")) (some "R9C9")
        (some "R1C1") true (availableSeats fxSeatMapC3)).error ≠ none ∧
    (stopRoulette fxStateC3 [] [] (some (sampleStudent "s1")) (some "R9C9")
        (some "R1C1") true (availableSeats fxSeatMapC3)).committed ≠ some "R9C9" :=
  ⟨(C3_amended fxStateC3 [] [] (sampleStudent "s1") "R9C9" (some "R1C1")
      (availableSeats fxSeatMapC3) rfl (by decide) (Or.inl (by decide))
      (List.Perm.refl _)).2.2.1,
   (C3_amended fxStateC3 [] [] (sampleStudent "s1") "R9C9" (some "R1C1")
      (availableSeats fxSeatMapC3) rfl (by decide) (Or.inl (by decide))
      (List.Perm.refl _)).2.2.2⟩

/-- `find?` only depends on the predicate's values on the list. -/
theorem find?_congr_list {α : Type} {p q : α → Bool} :
    ∀ {l : List α}, (∀ x ∈ l, p x = q x) → l.find? p = l.find? q := by
  intro l
  induction l with
  | nil => intro _; rfl
  | cons x xs ih =>
    intro h
    have hx := h x (List.mem_cons_self x xs)
    simp only [List.find?_cons]
    rw [hx]
    cases q x with
    | true => rfl
    | false => exact ih (fun y hy => h y (List.mem_cons_of_mem x hy))

/-- Index form of a successful `find?`: the result sits at the first index
satisfying the predicate. -/
theorem find?_eq_some_index {α : Type} {p : α → Bool} :
    ∀ {l : List α} {x : α}, l.find? p = some x →
      ∃ j, j < l.length ∧ l.get? j = some x ∧ p x = true ∧
        ∀ t, t < j → ∀ y, l.get? t = some y → p y = false := by
  intro l
  induction l with
  | nil => intro x h; cases h
  | cons a as ih =>
    intro x h
    rw [List.find?_cons] at h
    cases hp : p a with
    | true =>
      rw [hp] at h
      cases h
      exact ⟨0, by simp, rfl, hp, fun t ht y hy => absurd ht (by omega)⟩
    | false =>
      rw [hp] at h
      obtain ⟨j, hj, hget, hpx, hmin⟩ := ih h
      refine ⟨j + 1, by simpa using hj, hget, hpx, ?_⟩
      intro t ht y hy
      cases t with
      | zero =>
        cases hy
        exact hp
      | succ t2 => exact hmin t2 (by omega) y hy

/-- If no visited slot satisfies the guard, the fallback loop fails. -/
theorem fallbackGo_eq_none_of {seats : List SeatMapData} {pred : SeatMapData → Bool} :
    ∀ {fuel a : Nat},
      (∀ t, t < fuel → ∀ s, seats.get? ((a + t) % seats.length) = some s →
        (!(s.seatId == "") && pred s) = false) →
      fallbackGo seats pred fuel a = none := by
  intro fuel
  induction fuel with
  | zero => intro a _; rfl
  | succ n ih =>
    intro a h
    unfold fallbackGo
    cases hg : seats.get? (a % seats.length) with
    | none =>
      exact ih (fun t ht s hs => h (t + 1) (by omega) s (by
        rw [show a + 1 + t = a + (t + 1) by omega] at hs; exact hs))
    | some seat0 =>
      dsimp only
      have h0 := h 0 (by omega) seat0 (by simpa using hg)
      rw [h0]
      simp only [Bool.false_eq_true, if_false]
      exact ih (fun t ht s hs => h (t + 1) (by omega) s (by
        rw [show a + 1 + t = a + (t + 1) by omega] at hs; exact hs))

/-- If slot `j` is the first visited slot satisfying the guard, the fallback
loop returns its seat. -/
theorem fallbackGo_eq_some_of {seats : List SeatMapData} {pred : SeatMapData → Bool} :
    ∀ {fuel a j : Nat} {seat : SeatMapData}, j < fuel →
      seats.get? ((a + j) % seats.length) = some seat →
      (!(seat.seatId == "") && pred seat) = true →
      (∀ t, t < j → ∀ s, seats.get? ((a + t) % seats.length) = some s →
        (!(s.seatId == "") && pred s) = false) →
      fallbackGo seats pred fuel a = some seat := by
  intro fuel
  induction fuel with
  | zero => intro a j seat hj; omega
  | succ n ih =>
    intro a j seat hj hget hpred hmin
    unfold fallbackGo
    cases j with
    | zero =>
      rw [show a + 0 = a by omega] at hget
      rw [hget]
      simp [hpred]
    | succ j2 =>
      cases hg : seats.get? (a % seats.length) with
      | none =>
        refine @ih (a + 1) j2 seat (by omega) ?_ hpred ?_
        · rw [show a + 1 + j2 = a + (j2 + 1) by omega]
          exact hget
        · intro t ht s hs
          refine hmin (t + 1) (by omega) s ?_
          rw [show a + (t + 1) = a + 1 + t by omega]
          exact hs
      | some seat0 =>
        dsimp only
        have h0 := hmin 0 (by omega) seat0 (by simpa using hg)
        rw [h0]
        simp only [Bool.false_eq_true, if_false]
        refine @ih (a + 1) j2 seat (by omega) ?_ hpred ?_
        · rw [show a + 1 + j2 = a + (j2 + 1) by omega]
          exact hget
        · intro t ht s hs
          refine hmin (t + 1) (by omega) s ?_
          rw [show a + (t + 1) = a + 1 + t by omega]
          exact hs

/-- The bounded, wrapping fallback loop is extensionally the first
guard-satisfying seat among the first 100 entries of the shuffled list. -/
theorem fallbackGo_eq_find (seats : List SeatMapData) (pred : SeatMapData → Bool) :
    fallbackGo seats pred 100 0
      = (seats.take 100).find? (fun s => !(s.seatId == "") && pred s) := by
  cases hf : (seats.take 100).find? (fun s => !(s.seatId == "") && pred s) with
  | none =>
    rw [List.find?_eq_none] at hf
    apply fallbackGo_eq_none_of
    intro t ht s hs
    have hlen : (0 + t) % seats.length < seats.length := by
      rw [List.get?_eq_getElem?] at hs
      obtain ⟨h, _⟩ := List.getElem?_eq_some_iff.mp hs
      exact h
    have hlenpos : 0 < seats.length := by omega
    have hidx : (0 + t) % seats.length < 100 := by
      by_cases hcase : seats.length ≤ 100
      · omega
      · have : (0 + t) % seats.length = t := by
          rw [Nat.zero_add]
          exact Nat.mod_eq_of_lt (by omega)
        omega
    have htake : (seats.take 100).get? ((0 + t) % seats.length) = some s := by
      rw [List.get?_eq_getElem?, List.getElem?_take_of_lt hidx, ← List.get?_eq_getElem?]
      exact hs
    have hmem : s ∈ seats.take 100 :=
      List.getElem?_mem (List.get?_eq_getElem? _ _ ▸ htake)
    simpa using hf s hmem
  | some x =>
    obtain ⟨j, hj, hget, hpx, hmin⟩ := find?_eq_some_index hf
    have hj100 : j < 100 := by
      have := List.length_take_le 100 seats
      omega
    have hjlen : j < seats.length := by
      rw [List.length_take] at hj
      omega
    apply fallbackGo_eq_some_of hj100
    · rw [show (0 + j) % seats.length = j by rw [Nat.zero_add, Nat.mod_eq_of_lt hjlen]]
      rw [List.get?_eq_getElem?, ← List.getElem?_take_of_lt hj100, ← List.get?_eq_getElem?]
      exact hget
    · exact hpx
    · intro t ht s hs
      rw [show (0 + t) % seats.length = t by
        rw [Nat.zero_add, Nat.mod_eq_of_lt (by omega)]] at hs
      refine hmin t ht s ?_
      rw [List.get?_eq_getElem?, List.getElem?_take_of_lt (by omega), ← List.get?_eq_getElem?]
      exact hs

/-- `take` to the source's `min(100, length)` bound is `take 100`. -/
theorem take_min_100 {α : Type} (l : List α) : l.take (min 100 l.length) = l.take 100 := by
  rw [← List.take_take, List.take_length]

/-- `stopStep12` with a falsy (absent or empty) manual selection and no
fixed assignment yields neither a seat nor an error. -/
theorem stopStep12_manual_falsy (state : EngineState) (relations : List RelationConfigData)
    (fixed : List FixedSeatAssignment) (st : Student) (manual : Option String)
    (hfix : fixed.find? (fun fsa => fsa.studentId == st.id) = none)
    (hjt : jsTruthyS manual = false) :
    stopStep12 state relations fixed st manual = (none, none) := by
  unfold stopStep12
  rw [hfix]
  simp [hjt]

/-- Under the C6 hypotheses (no fixed assignment, no valid manual selection,
no admissible highlighted seat) steps 1-3 produce no valid seat. -/
theorem stopSteps_none (state : EngineState) (relations : List RelationConfigData)
    (fixed : List FixedSeatAssignment) (st : Student) (manual highlight : Option String)
    (hfix : fixed.find? (fun fsa => fsa.studentId == st.id) = none)
    (hman : ∀ m, manual = some m → m ≠ "" →
      ((availableSeats state.seatMap).find? (fun seat => seat.seatId == m) = none ∨
        checkRelationConstraints m (some st) state.seatMap state.students relations = false))
    (hhigh : ∀ h0, highlight = some h0 → h0 ≠ "" →
      ((availableSeats state.seatMap).find? (fun seat => seat.seatId == h0) = none ∨
        checkRelationConstraints h0 (some st) state.seatMap state.students relations = false)) :
    ∃ e, stopStep3 state relations st highlight
      (stopStep12 state relations fixed st manual) = (none, e) := by
  have h12 : ∃ e, stopStep12 state relations fixed st manual = (none, e) := by
    by_cases hjt : jsTruthyS manual = true
    · cases manual with
      | none => cases hjt
      | some m =>
        have hm : m ≠ "" := by
          intro hcon
          rw [hcon] at hjt
          cases hjt
        obtain ⟨e, he⟩ := stopStep12_manual_invalid state relations fixed st m hfix hm
          (hman m rfl hm)
        exact ⟨some e, he⟩
    · exact ⟨none, stopStep12_manual_falsy state relations fixed st manual hfix
        (by revert hjt; cases jsTruthyS manual <;> simp)⟩
  obtain ⟨e, he⟩ := h12
  rw [he]
  unfold stopStep3
  dsimp only
  by_cases hjt : jsTruthyS highlight = true
  · cases highlight with
    | none => cases hjt
    | some h0 =>
      have hne : h0 ≠ "" := by
        intro hcon
        rw [hcon] at hjt
        cases hjt
      rw [if_pos hjt]
      rcases hhigh h0 rfl hne with hb | hb
      · simp only [Option.getD_some]
        rw [hb]
        exact ⟨e, rfl⟩
      · simp only [Option.getD_some]
        cases hfind : (availableSeats state.seatMap).find? (fun seat => seat.seatId == h0) with
        | none => exact ⟨e, rfl⟩
        | some seat =>
          dsimp only
          rw [hb]
          exact ⟨e, rfl⟩
  · rw [if_neg hjt]
    exact ⟨e, rfl⟩

/-- **C6.** When no fixed assignment applies, the manual selection (if any)
is invalid, and the highlighted seat (if any) is unavailable or
inadmissible, the resolver's fallback commits the first admissible seat
among the first `min(100, length)` entries of the shuffled available-seat
list, and fails with the no-admissible-seat error, committing nothing, when
there is none. -/
theorem C6_fallback_search :
    ∀ (state : EngineState) (relations : List RelationConfigData)
      (fixed : List FixedSeatAssignment) (st : Student) (manual highlight : Option String)
      (shuffled : List SeatMapData),
      fixed.find? (fun fsa => fsa.studentId == st.id) = none →
      (∀ m, manual = some m → m ≠ "" →
        ((availableSeats state.seatMap).find? (fun seat => seat.seatId == m) = none ∨
          checkRelationConstraints m (some st) state.seatMap state.students relations = false)) →
      (∀ h0, highlight = some h0 → h0 ≠ "" →
        ((availableSeats state.seatMap).find? (fun seat => seat.seatId == h0) = none ∨
          checkRelationConstraints h0 (some st) state.seatMap state.students relations
            = false)) →
      shuffled.Perm (availableSeats state.seatMap) →
      (∀ seat ∈ availableSeats state.seatMap, seat.seatId ≠ "") →
      ((∀ seat, (shuffled.take (min 100 shuffled.length)).find?
            (fun s => checkRelationConstraints s.seatId (some st) state.seatMap
              state.students relations) = some seat →
          (stopRoulette state relations fixed (some st) manual highlight true shuffled).state
              = commitAssign st.id seat.seatId state ∧
          (stopRoulette state relations fixed (some st) manual highlight true
              shuffled).committed = some seat.seatId) ∧
        ((shuffled.take (min 100 shuffled.length)).find?
            (fun s => checkRelationConstraints s.seatId (some st) state.seatMap
              state.students relations) = none →
          (stopRoulette state relations fixed (some st) manual highlight true shuffled).state
              = state ∧
          (stopRoulette state relations fixed (some st) manual highlight true
              shuffled).committed = none ∧
          (stopRoulette state relations fixed (some st) manual highlight true shuffled).error
              = some eNoSeat)) := by
  intro state relations fixed st manual highlight shuffled hfix hman hhigh hperm hne
  obtain ⟨e, hsteps⟩ := stopSteps_none state relations fixed st manual highlight hfix hman hhigh
  have hrun : stopRoulette state relations fixed (some st) manual highlight true shuffled
      = stopFinish state relations st shuffled (none, e) := by
    simp only [stopRoulette, Bool.not_true, Bool.false_eq_true, if_false, hsteps]
  have hcongr : (shuffled.take 100).find?
      (fun s => !(s.seatId == "") && checkRelationConstraints s.seatId (some st)
        state.seatMap state.students relations)
      = (shuffled.take 100).find?
        (fun s => checkRelationConstraints s.seatId (some st) state.seatMap
          state.students relations) := by
    apply find?_congr_list
    intro x hx
    have hxa : x ∈ availableSeats state.seatMap :=
      hperm.mem_iff.mp (List.mem_of_mem_take hx)
    have : (x.seatId == "") = false := by
      simpa using hne x hxa
    rw [this]
    rfl
  have hfb : fallbackGo shuffled
      (fun seat => checkRelationConstraints seat.seatId (some st) state.seatMap
        state.students relations) 100 0
      = (shuffled.take (min 100 shuffled.length)).find?
        (fun s => checkRelationConstraints s.seatId (some st) state.seatMap
          state.students relations) := by
    rw [take_min_100, fallbackGo_eq_find, hcongr]
  constructor
  · intro seat hfound
    rw [hrun]
    unfold stopFinish
    dsimp only
    rw [hfb, hfound]
    exact ⟨rfl, rfl⟩
  · intro hnone
    rw [hrun]
    unfold stopFinish
    dsimp only
    rw [hfb, hnone]
    exact ⟨rfl, rfl, rfl⟩

/-- Witness for C6: the fallback fails on a fully blocked 1×2 grid with a
`must_not_co_seat` partner adjacent to the only free seat. -/
theorem C6_fallback_search_witness :
    (stopRoulette
      { students := [sampleStudent "s1",
          { sampleStudent "s2" with isAssigned := true, assignedSeatId := some "R1C1" }],
        seatMap := [sampleSeat "R1C1" 1 1 true (some "s2"), sampleSeat "R1C2" 1 2 true none],
        history := [] }
      [{ studentId1 := "s1", studentId2 := "s2", type := RelationType.no_co_seat }]
      [] (some (sampleStudent "s1")) none none true
      (availableSeats
        [sampleSeat "R1C1" 1 1 true (some "s2"), sampleSeat "R1C2" 1 2 true none])).error
      = some eNoSeat :=
  ((C6_fallback_search
      { students := [sampleStudent "s1",
          { sampleStudent "s2" with isAssigned := true, assignedSeatId := some "R1C1" }],
        seatMap := [sampleSeat "R1C1" 1 1 true (some "s2"), sampleSeat "R1C2" 1 2 true none],
        history := [] }
      [{ studentId1 := "s1", studentId2 := "s2", type := RelationType.no_co_seat }]
      [] (sampleStudent "s1") none none
      (availableSeats
        [sampleSeat "R1C1" 1 1 true (some "s2"), sampleSeat "R1C2" 1 2 true none])
      rfl (by intro m hm; cases hm) (by intro h0 hh; cases hh) (List.Perm.refl _)
      (by decide)).2 (by decide)).2.2

/-- **C10.** A valid fixed assignment is committed unconditionally — the
conclusion holds for every relation list, so the constraint checker has no
influence on this branch — and there are configurations (second conjunct)
where the committed fixed seat violates a `must_co_seat` relation with an
already-seated partner. -/
theorem C10_fixed_commit_unchecked :
    (∀ (state : EngineState) (relations : List RelationConfigData)
        (fixed : List FixedSeatAssignment) (st : Student) (manual highlight : Option String)
        (shuffled : List SeatMapData) (fa : FixedSeatAssignment) (seat : SeatMapData),
        fixed.find? (fun fsa => fsa.studentId == st.id) = some fa →
        state.seatMap.find? (fun s => s.seatId == fa.seatId) = some seat →
        seat.isUsable = true →
        (seat.assignedStudentId = none ∨ seat.assignedStudentId = some st.id) →
        stopRoulette state relations fixed (some st) manual highlight true shuffled =
          { state := commitAssign st.id fa.seatId state,
            committed := some fa.seatId, error := none }) ∧
    ((stopRoulette fxStateC10 fxRelC10 [{ studentId := "s1", seatId := "R1C1" }]
        (some (sampleStudent "s1")) none none true
        (availableSeats fxSeatMapC10)).committed = some "R1C1" ∧
      checkRelationConstraints "R1C1" (some (sampleStudent "s1")) fxSeatMapC10
        fxStateC10.students fxRelC10 = false) := by
  constructor
  · intro state relations fixed st manual highlight shuffled fa seat hfa hseat husable hocc
    have h12 : stopStep12 state relations fixed st manual = (some fa.seatId, none) := by
      unfold stopStep12
      rw [hfa]
      dsimp only
      rw [hseat]
      have hg : (jsTruthyS seat.assignedStudentId
          && !(seat.assignedStudentId == some st.id)) = false := by
        rcases hocc with h | h <;> simp [h, jsTruthyS]
      simp [husable, hg]
    simp only [stopRoulette, Bool.not_true, Bool.false_eq_true, if_false, h12]
    rfl
  · constructor
    · decide
    · decide

/-- Witness for C10's general conjunct at the violating configuration. -/
theorem C10_fixed_commit_unchecked_witness :
    stopRoulette fxStateC10 fxRelC10 [{ studentId := "s1", seatId := "R1C1" }]
        (some (sampleStudent "s1")) none none true (availableSeats fxSeatMapC10) =
      { state := commitAssign "s1" "R1C1" fxStateC10,
        committed := some "R1C1", error := none } :=
  C10_fixed_commit_unchecked.1 fxStateC10 fxRelC10
    [{ studentId := "s1", seatId := "R1C1" }] (sampleStudent "s1") none none
    (availableSeats fxSeatMapC10) { studentId := "s1", seatId := "R1C1" }
    (sampleSeat "R1C1" 1 1 true none) (by decide) (by decide) (by decide) (Or.inl rfl)

end SeatingApp
